import Mathlib

/-!
Verification development for a USD (Hydra) plugin excerpt:

* `third_party/renderman-24/plugin/hdPrman/material.cpp` — conversion of an
  `HdMaterialNetwork2` into Riley shading nodes (`_ConvertNodes`,
  `HdPrman_ConvertHdMaterialNetwork2ToRmanNodes`,
  `_ConvertHdMaterialNetwork2ToRman`, `_ConvertOptionTokenToInt`,
  `_ConvertToVec3fArray`);
* `pxr/imaging/hdSt/glslfxShader.cpp` — `HdStGLSLFXShader::Reload`;
* `pxr/imaging/hdx/oitVolumeRenderTask.cpp` — `HdxOitVolumeRenderTask::Execute`.

The C++ sources are shallowly embedded as executable Lean functions.  C++
`float`/`double` values are represented by their IEEE 754 binary32/binary64
bit patterns (as `Nat`), so that the numeric conversions performed by the
code (`int` → `float` widening, `float` → `int` truncation, `double` →
`float` narrowing, and the byte reinterpretation performed by a mismatched
`VtValue::UncheckedGet`) stay distinguishable.  External collaborators
(the Sdr shader registry, the Ar resolver, the Hio image registry, the
Riley sink, the GL server and the glslfx file loader) are passed in as
explicit read-only parameters, mirroring how the code consumes them.
-/

/-! ## IEEE 754 helpers (bit-pattern arithmetic for C++ float/double) -/

/-- Divide `n` by `2 ^ k`, rounding to nearest and to even on ties
(IEEE 754 default rounding, used by the hardware conversions the C++
code performs implicitly). -/
def rshiftRNE (n k : Nat) : Nat :=
  if k = 0 then n
  else
    let q := n / 2 ^ k
    let r := n % 2 ^ k
    let half := 2 ^ (k - 1)
    if half < r ∨ (r = half ∧ q % 2 = 1) then q + 1 else q

/-- Attach the binary32 sign bit. -/
def f32Pack (neg : Bool) (bits : Nat) : Nat :=
  if neg then 2 ^ 31 + bits else bits

/-- Floor of the base-2 logarithm, by structural recursion on a fuel bound
(so that concrete evaluations reduce inside the kernel); `floorLog2 n`
is the position of the most significant bit of `n > 0`. -/
def floorLog2Aux : Nat → Nat → Nat
  | 0, _ => 0
  | fuel + 1, n => if n < 2 then 0 else floorLog2Aux fuel (n / 2) + 1

/-- Floor of the base-2 logarithm (`floorLog2 0 = 0`). -/
def floorLog2 (n : Nat) : Nat := floorLog2Aux n n

/-- Encode the real number `(-1)^neg * sig * 2 ^ exp2` as an IEEE 754
binary32 bit pattern, rounding to nearest-even and overflowing to
infinity. -/
def f32OfParts (neg : Bool) (sig : Nat) (exp2 : Int) : Nat :=
  if sig = 0 then f32Pack neg 0
  else
    let k := floorLog2 sig
    let e : Int := exp2 + k
    if 128 ≤ e then f32Pack neg 0x7F800000
    else if -126 ≤ e then
      let q := if k ≤ 23 then sig * 2 ^ (23 - k) else rshiftRNE sig (k - 23)
      if q = 2 ^ 24 then
        if 128 ≤ e + 1 then f32Pack neg 0x7F800000
        else f32Pack neg ((e + 128).toNat * 2 ^ 23)
      else f32Pack neg ((e + 127).toNat * 2 ^ 23 + (q - 2 ^ 23))
    else
      let sh : Int := exp2 + 149
      let q := if 0 ≤ sh then sig * 2 ^ sh.toNat else rshiftRNE sig (-sh).toNat
      f32Pack neg q

/-- C++ `float(int)`: convert an integer to binary32 (round to nearest-even;
the `int` range never overflows binary32's exponent range). -/
def f32OfInt (i : Int) : Nat :=
  if i < 0 then f32OfParts true (-i).toNat 0 else f32OfParts false i.toNat 0

/-- C++ `int(float)`: truncation toward zero of a binary32 bit pattern. -/
def f32TruncToInt (bits : Nat) : Int :=
  let neg : Bool := bits / 2 ^ 31 % 2 = 1
  let e : Nat := bits / 2 ^ 23 % 2 ^ 8
  let m : Nat := bits % 2 ^ 23
  let mag : Nat :=
    if e = 0 then 0
    else if 150 ≤ e then (2 ^ 23 + m) * 2 ^ (e - 150)
    else (2 ^ 23 + m) / 2 ^ (150 - e)
  if neg then -(mag : Int) else (mag : Int)

/-- C++ `float(double)`: narrow a binary64 bit pattern to binary32
(round to nearest-even; NaN narrows to a quiet NaN). -/
def f32OfF64 (bits : Nat) : Nat :=
  let neg : Bool := bits / 2 ^ 63 % 2 = 1
  let e : Nat := bits / 2 ^ 52 % 2 ^ 11
  let m : Nat := bits % 2 ^ 52
  if e = 2047 then
    if m = 0 then f32Pack neg 0x7F800000 else f32Pack neg 0x7FC00000
  else if e = 0 then f32OfParts neg m (-1074)
  else f32OfParts neg (2 ^ 52 + m) ((e : Int) - 1075)

/-- The four bytes of a 32-bit C++ `int` (two's complement) read back as a
`float` bit pattern.  This is what `VtValue::UncheckedGet<VtArray<float>>`
observes per element when the value actually holds a `VtArray<int>`:
`UncheckedGet` casts the type-erased storage without converting it. -/
def f32ReinterpretOfInt (i : Int) : Nat := (i % 2 ^ 32).toNat

/-! ## Data model (pxr/imaging/hd/material.h and pxr/usd/sdr) -/

/-- `SdfPath`, reduced to its text (`GetText`/`GetString`), which is all the
converter uses paths for (map keys, handles, reference strings). -/
abbrev SdfPathT := String

/-- Lookup in an association list; models `std::map::find` /
`TfMapLookupPtr` on a map whose entries are listed in key order. -/
def alookup {α : Type} : List (String × α) → String → Option α
  | [], _ => none
  | (k, v) :: rest, key => if k = key then some v else alookup rest key

/-- `HdMaterialConnection2`: one upstream connection of a node input. -/
structure Connection where
  upstreamNode : SdfPathT
  upstreamOutputName : String
deriving DecidableEq, Repr

/-- `VtValue`, restricted to the dynamic types the parameter dispatch in
`_ConvertNodes` (material.cpp:293-477) tests for, plus a catch-all for any
other held type (which the dispatch skips).  Float and double components
are IEEE bit patterns. -/
inductive VtValue where
  | vec2f (x y : Nat)
  | vec3f (x y z : Nat)
  | vec4f (x y z w : Nat)
  | vec3fArray (vs : List (Nat × Nat × Nat))
  | vec3d (x y z : Nat)
  | vec3dArray (vs : List (Nat × Nat × Nat))
  | float (v : Nat)
  | floatArray (vs : List Nat)
  | int (v : Int)
  | intArray (vs : List Int)
  | token (s : String)
  | string (s : String)
  | assetPath (authoredPath resolvedPath : String)
  | bool (b : Bool)
  | unknownType (typeName : String)
deriving DecidableEq, Repr

/-- `HdMaterialNode2`: node type identifier, authored parameters (a map,
listed in key order) and input connections (a map from input name to the
ordered list of upstream connections). -/
structure HdMaterialNode2 where
  nodeTypeId : String
  parameters : List (String × VtValue)
  inputConnections : List (String × List Connection)
deriving DecidableEq, Repr

/-- `HdMaterialNetwork2`: node map plus terminal map (both listed in key
order).  Connections may dangle: a referenced path need not be a key of
`nodes`. -/
structure HdMaterialNetwork2 where
  nodes : List (SdfPathT × HdMaterialNode2)
  terminals : List (String × Connection)
deriving DecidableEq, Repr

/-- `SdrShaderProperty`, reduced to the accessors the converter calls:
`GetType`, `GetImplementationName`, `GetOptions`. -/
structure SdrShaderProperty where
  propType : String
  implementationName : String
  options : List (String × String)
deriving DecidableEq, Repr

/-- `SdrShaderNode`, reduced to the accessors the converter calls:
`GetContext`, `GetName`, `GetResolvedImplementationURI`,
`GetImplementationName`, `GetShaderInput`, `GetShaderOutput`. -/
structure SdrShaderNode where
  context : String
  name : String
  resolvedImplementationURI : String
  implementationName : String
  shaderInputs : List (String × SdrShaderProperty)
  shaderOutputs : List (String × SdrShaderProperty)
deriving DecidableEq, Repr

/-- The Sdr registry as consumed by the converter:
`SdrRegistry::GetShaderNodeByIdentifier(nodeTypeId, *_sourceTypes)` with the
fixed source-type preference list baked in.  Read-only for the duration of
a conversion. -/
abbrev SdrRegistryT := String → Option SdrShaderNode

/-- External collaborators of the `SdfAssetPath` parameter branch
(material.cpp:438-470): `ArGetResolver().GetExtension`,
`HioImageRegistry::IsSupportedImageFile`, and the platform's
`ARCH_LIBRARY_SUFFIX`. -/
structure AssetResolveEnv where
  getExtension : String → String
  isSupportedImageFile : String → Bool
  archLibrarySuffix : String

/-- Value of the `HdLightTokens->textureFile` token. -/
def hdLightTokens_textureFile : String := "texture:file"

/-- `riley::ShadingNode::Type`. -/
inductive ShadingNodeType where
  | k_Bxdf
  | k_Pattern
  | k_Displacement
  | k_Light
  | k_LightFilter
deriving DecidableEq, Repr

/-- One `RtParamList` entry, tagged by the `Set…` method that produced it
(material.cpp parameter and connection conversion).  Color/vector/point/
normal components are binary32 bit patterns. -/
inductive RtParam where
  | setFloat (name : String) (v : Nat)
  | setFloatArray (name : String) (vs : List Nat)
  | setInteger (name : String) (v : Int)
  | setIntegerArray (name : String) (vs : List Int)
  | setColor (name : String) (v : Nat × Nat × Nat)
  | setVector (name : String) (v : Nat × Nat × Nat)
  | setPoint (name : String) (v : Nat × Nat × Nat)
  | setNormal (name : String) (v : Nat × Nat × Nat)
  | setColorArray (name : String) (vs : List (Nat × Nat × Nat))
  | setVectorArray (name : String) (vs : List (Nat × Nat × Nat))
  | setPointArray (name : String) (vs : List (Nat × Nat × Nat))
  | setNormalArray (name : String) (vs : List (Nat × Nat × Nat))
  | setString (name : String) (v : String)
  | setColorReference (name ref : String)
  | setVectorReference (name ref : String)
  | setPointReference (name ref : String)
  | setNormalReference (name ref : String)
  | setFloatReference (name ref : String)
  | setIntegerReference (name ref : String)
  | setStringReference (name ref : String)
  | setStructReference (name ref : String)
deriving DecidableEq, Repr

/-- `riley::ShadingNode`: type, handle (the node path text), shader name
(resolved path or implementation name), and accumulated `RtParamList`. -/
structure RileyShadingNode where
  type : ShadingNodeType
  handle : String
  name : String
  params : List RtParam
deriving DecidableEq, Repr

/-! ## Parameter value conversion (material.cpp:137-161, 264-488) -/

/-- Leading decimal digits of a character stream (`operator>>` stops at the
first non-digit). -/
def takeDigits : List Char → List Char
  | [] => []
  | c :: rest => if c.isDigit then c :: takeDigits rest else []

/-- Value of a digit list. -/
def digitsToNat (ds : List Char) : Nat :=
  ds.foldl (fun acc c => acc * 10 + (c.toNat - 48)) 0

/-- Model of `TfUnstringify<int>` (a `std::stringstream` extraction into
`int`): read an optional sign and leading digits; fail when no digit is
read; on 32-bit overflow the stream fails and the value clamps (C++11
`num_get`).  Returns the value and the success flag. -/
def tfUnstringifyInt (s : String) : Int × Bool :=
  let cs := s.data
  let signed : Bool × List Char :=
    match cs with
    | '-' :: rest => (true, takeDigits rest)
    | '+' :: rest => (false, takeDigits rest)
    | _ => (false, takeDigits cs)
  if signed.2 = [] then (0, false)
  else
    let n := digitsToNat signed.2
    if signed.1 then
      if 2 ^ 31 < n then (-(2 ^ 31), false) else (-(n : Int), true)
    else
      if 2 ^ 31 ≤ n then (2 ^ 31 - 1, false) else ((n : Int), true)

/-- `_ConvertOptionTokenToInt` (material.cpp:150-161): scan the declared
option table for the first pair whose label equals `option`; on a match the
result is the parse of the pair's second component (the C++ sets `*ok` to
true and then lets `TfUnstringify` clear it on parse failure); with no
match the value is 0 and `*ok` keeps its caller-initialized false. -/
def _ConvertOptionTokenToInt (option : String) (options : List (String × String)) :
    Int × Bool :=
  match options.find? (fun tokenPair => tokenPair.1 == option) with
  | some tokenPair => tfUnstringifyInt tokenPair.2
  | none => (0, false)

/-- `_ConvertToVec3fArray` (material.cpp:137-148): per-component `double`
to `float` narrowing. -/
def _ConvertToVec3fArray (v : List (Nat × Nat × Nat)) : List (Nat × Nat × Nat) :=
  v.map (fun t => (f32OfF64 t.1, f32OfF64 t.2.1, f32OfF64 t.2.2))

/-- The parameter dispatch of `_ConvertNodes` (material.cpp:293-487): given
the declared property and the held value, produce the `RtParamList`
entries emitted for this parameter (zero or one) and the final value of
`ok` (false means the skip is logged as a dispatch failure).  The
Struct/Vstruct test precedes the held-type chain, exactly as in the
source; the held-type cases appear in source order. -/
def _ConvertParamValue (env : AssetResolveEnv) (snType : ShadingNodeType)
    (paramName : String) (prop : SdrShaderProperty) (value : VtValue) :
    List RtParam × Bool :=
  let name := prop.implementationName
  let propType := prop.propType
  if propType = "struct" ∨ propType = "vstruct" then
    ([], true)
  else
    match value with
    | .vec2f x y =>
      if propType = "float" then ([.setFloatArray name [x, y]], true) else ([], false)
    | .vec3f x y z =>
      if propType = "color" then ([.setColor name (x, y, z)], true)
      else if propType = "vector" then ([.setVector name (x, y, z)], true)
      else if propType = "point" then ([.setPoint name (x, y, z)], true)
      else if propType = "normal" then ([.setNormal name (x, y, z)], true)
      else ([], false)
    | .vec4f x y z w =>
      if propType = "float" then ([.setFloatArray name [x, y, z, w]], true) else ([], false)
    | .vec3fArray vs =>
      if propType = "color" then ([.setColorArray name vs], true)
      else if propType = "vector" then ([.setVectorArray name vs], true)
      else if propType = "point" then ([.setPointArray name vs], true)
      else if propType = "normal" then ([.setNormalArray name vs], true)
      else ([], false)
    | .vec3d x y z =>
      if propType = "color" then
        ([.setColor name (f32OfF64 x, f32OfF64 y, f32OfF64 z)], true)
      else ([], false)
    | .vec3dArray vs =>
      if propType = "color" then ([.setColorArray name (_ConvertToVec3fArray vs)], true)
      else ([], false)
    | .float v =>
      if propType = "int" then ([.setInteger name (f32TruncToInt v)], true)
      else if propType = "float" then ([.setFloat name v], true)
      else ([], false)
    | .floatArray vs =>
      if propType = "float" then ([.setFloatArray name vs], true) else ([], false)
    | .int v =>
      if propType = "float" then ([.setFloat name (f32OfInt v)], true)
      else if propType = "int" then ([.setInteger name v], true)
      else ([], false)
    | .intArray vs =>
      if propType = "float" then
        -- material.cpp:400-405: the value was checked to hold VtArray<int>
        -- but is fetched with UncheckedGet<VtArray<float>>, so the stored
        -- int elements are reinterpreted, not converted.
        ([.setFloatArray name (vs.map f32ReinterpretOfInt)], true)
      else if propType = "int" then ([.setIntegerArray name vs], true)
      else ([], false)
    | .token v =>
      if propType = "int" then
        let r := _ConvertOptionTokenToInt v prop.options
        if r.2 then ([.setInteger name r.1], true) else ([], false)
      else ([.setString name v], true)
    | .string v =>
      if propType = "int" then
        let r := _ConvertOptionTokenToInt v prop.options
        if r.2 then ([.setInteger name r.1], true) else ([], false)
      else ([.setString name v], true)
    | .assetPath authoredPath resolvedPath =>
      let v :=
        if resolvedPath = "" then authoredPath
        else if env.getExtension resolvedPath ≠ "tex" then
          if snType = .k_Light ∧ paramName = hdLightTokens_textureFile then
            "rtxplugin:RtxHioImage" ++ env.archLibrarySuffix
              ++ "?filename=" ++ resolvedPath ++ "&flipped=false"
          else if resolvedPath ≠ "" ∧ env.isSupportedImageFile resolvedPath then
            "rtxplugin:RtxHioImage" ++ env.archLibrarySuffix
              ++ "?filename=" ++ resolvedPath
          else resolvedPath
        else resolvedPath
      ([.setString name v], true)
    | .bool b => ([.setInteger name (if b then 1 else 0)], true)
    | .unknownType _ => ([], false)

/-- The parameter loop of `_ConvertNodes` (material.cpp:265-488): for each
authored parameter, look up the declared input; unknown properties and
properties with an empty declared type are skipped (with debug logging
only — the PxrDisplace special case at material.cpp:277-291 differs solely
in whether the skip is logged); otherwise dispatch on the value. -/
def _ConvertNodeParams (env : AssetResolveEnv) (snType : ShadingNodeType)
    (sdrEntry : SdrShaderNode) (parameters : List (String × VtValue)) :
    List RtParam :=
  parameters.flatMap fun param =>
    match alookup sdrEntry.shaderInputs param.1 with
    | none => []
    | some prop =>
      if prop.propType = "" then []
      else (_ConvertParamValue env snType param.1 prop param.2).1

/-- The node classification of `_ConvertNodes` (material.cpp:210-244):
map the registry context to a Riley shading node type, reclassifying the
OSL pattern `PxrDisplace` as a displacement node. -/
def _ClassifyShadingNodeType (node : HdMaterialNode2) (sdrEntry : SdrShaderNode) :
    Option ShadingNodeType :=
  if sdrEntry.context = "bxdf" ∨ sdrEntry.context = "surface"
      ∨ sdrEntry.context = "volume" then
    some .k_Bxdf
  else if sdrEntry.context = "pattern" ∨ sdrEntry.context = "OSL" then
    if node.nodeTypeId = "PxrDisplace" then some .k_Displacement else some .k_Pattern
  else if sdrEntry.context = "displacement" then some .k_Displacement
  else if sdrEntry.context = "light" then some .k_Light
  else if sdrEntry.context = "lightFilter" then some .k_LightFilter
  else none

/-- The connected-input loop of `_ConvertNodes` (material.cpp:489-557):
for each authored connection resolve the upstream node, its registry
entry, and both property descriptors; any missing piece skips just that
connection (with a warning); otherwise emit one typed reference parameter
`"upstreamPath:upstreamImplName"` chosen by the downstream input's
declared type. -/
def _ConvertConnectionRefs (sdrRegistry : SdrRegistryT) (network : HdMaterialNetwork2)
    (sdrEntry : SdrShaderNode)
    (inputConnections : List (String × List Connection)) : List RtParam :=
  inputConnections.flatMap fun connEntry =>
    connEntry.2.flatMap fun e =>
      match alookup network.nodes e.upstreamNode with
      | none => []
      | some upstreamNode =>
        match sdrRegistry upstreamNode.nodeTypeId with
        | none => []
        | some upstreamSdrEntry =>
          match alookup sdrEntry.shaderInputs connEntry.1,
              alookup upstreamSdrEntry.shaderOutputs e.upstreamOutputName with
          | some downstreamProp, some upstreamProp =>
            let name := downstreamProp.implementationName
            let inputRef := e.upstreamNode ++ ":" ++ upstreamProp.implementationName
            let propType := downstreamProp.propType
            if propType = "color" then [.setColorReference name inputRef]
            else if propType = "vector" then [.setVectorReference name inputRef]
            else if propType = "point" then [.setPointReference name inputRef]
            else if propType = "normal" then [.setNormalReference name inputRef]
            else if propType = "float" then [.setFloatReference name inputRef]
            else if propType = "int" then [.setIntegerReference name inputRef]
            else if propType = "string" then [.setStringReference name inputRef]
            else if propType = "struct" then [.setStructReference name inputRef]
            else []
          | _, _ => []

/-- The per-node build of `_ConvertNodes` after the upstream pre-traversal
(material.cpp:200-559 minus the recursion): registry lookup, node
classification, implementation path selection (name instead of resolved
URI for displacement/light/light-filter nodes), parameter conversion and
connection conversion.  `none` models the `return false` paths (unknown
shader, unknown context, empty implementation path). -/
def _BuildShadingNode (sdrRegistry : SdrRegistryT) (env : AssetResolveEnv)
    (network : HdMaterialNetwork2) (nodePath : SdfPathT) (node : HdMaterialNode2) :
    Option RileyShadingNode :=
  match sdrRegistry node.nodeTypeId with
  | none => none
  | some sdrEntry =>
    match _ClassifyShadingNodeType node sdrEntry with
    | none => none
    | some snType =>
      if sdrEntry.resolvedImplementationURI = "" then none
      else
        let shaderPath :=
          if snType = .k_Displacement ∨ snType = .k_Light ∨ snType = .k_LightFilter
          then sdrEntry.implementationName
          else sdrEntry.resolvedImplementationURI
        some { type := snType, handle := nodePath, name := shaderPath,
               params := _ConvertNodeParams env snType sdrEntry node.parameters
                 ++ _ConvertConnectionRefs sdrRegistry network sdrEntry
                      node.inputConnections }

/-! ## Recursive traversal (material.cpp:168-573) -/

/-- The upstream pre-traversal loop of `_ConvertNodes`
(material.cpp:193-199), flattened over the per-input connection lists:
call the converter on each upstream node in order, threading the visited
set and concatenating the emitted nodes.  The recursive callee is passed
as `f`; its boolean result is ignored, exactly as in the source.  Results
are (emitted nodes, newly visited paths); the visited set after the loop
is the returned delta prepended to the input set. -/
def _ConvertUpstreamNodes
    (f : SdfPathT → List SdfPathT → Bool × List RileyShadingNode × List SdfPathT) :
    List Connection → List SdfPathT → List RileyShadingNode × List SdfPathT
  | [], _ => ([], [])
  | e :: rest, visitedNodes =>
    let r := f e.upstreamNode visitedNodes
    let r2 := _ConvertUpstreamNodes f rest (r.2.2 ++ visitedNodes)
    (r.2.1 ++ r2.1, r2.2 ++ r.2.2)

/-- `_ConvertNodes` (material.cpp:168-562).  The C++ recursion terminates
because the visited set grows on every nested call; here that measure is
made explicit as fuel, decremented once per nesting level.  The entry
point supplies `network.nodes.length + 1` fuel, which is never exhausted
(each non-leaf level freshly visits a distinct node of the network — see
`_ConvertNodes_fuel_sufficient`).  Returns (the C++ return value, nodes
appended to `result`, paths newly inserted into `visitedNodes`). -/
def _ConvertNodes (sdrRegistry : SdrRegistryT) (env : AssetResolveEnv)
    (network : HdMaterialNetwork2) :
    Nat → SdfPathT → List SdfPathT → Bool × List RileyShadingNode × List SdfPathT
  | 0, _, _ => (false, [], [])
  | fuel + 1, nodePath, visitedNodes =>
    if nodePath ∈ visitedNodes then (false, [], [])
    else
      match alookup network.nodes nodePath with
      | none => (false, [], [nodePath])
      | some node =>
        let child := _ConvertUpstreamNodes (_ConvertNodes sdrRegistry env network fuel)
          (node.inputConnections.flatMap Prod.snd) (nodePath :: visitedNodes)
        match _BuildShadingNode sdrRegistry env network nodePath node with
        | none => (false, child.1, child.2 ++ [nodePath])
        | some sn => (true, child.1 ++ [sn], child.2 ++ [nodePath])

/-- `HdPrman_ConvertHdMaterialNetwork2ToRmanNodes` (material.cpp:564-573):
run `_ConvertNodes` from the root with a fresh empty visited set; the
result vector starts empty at every call site.  Returns the success flag
and the emitted node list. -/
def HdPrman_ConvertHdMaterialNetwork2ToRmanNodes (sdrRegistry : SdrRegistryT)
    (env : AssetResolveEnv) (network : HdMaterialNetwork2) (nodePath : SdfPathT) :
    Bool × List RileyShadingNode :=
  let r := _ConvertNodes sdrRegistry env network (network.nodes.length + 1) nodePath []
  (r.1, r.2.1)

/-! ## Terminal orchestration (material.cpp:607-678) -/

/-- The Riley graph-commit sink: the return values of `CreateMaterial` and
`CreateDisplacement` (`none` models `riley::…Id::InvalidId()`).
`Modify…` does not change the identifier (the result argument is null). -/
structure RileySink where
  createMaterial : List RileyShadingNode → Option Nat
  createDisplacement : List RileyShadingNode → Option Nat

/-- Trace of Riley API calls issued by `_ConvertHdMaterialNetwork2ToRman`. -/
inductive RileyCall where
  | createMaterial (nodes : List RileyShadingNode) (ret : Option Nat)
  | modifyMaterial (id : Nat) (nodes : List RileyShadingNode)
  | deleteMaterial (id : Option Nat)
  | createDisplacement (nodes : List RileyShadingNode) (ret : Option Nat)
  | modifyDisplacement (id : Nat) (nodes : List RileyShadingNode)
  | deleteDisplacement (id : Option Nat)
deriving DecidableEq, Repr

/-- The locals of `_ConvertHdMaterialNetwork2ToRman` (material.cpp:610-678)
together with the identifiers passed by reference and the call trace. -/
structure RmanConvState where
  materialId : Option Nat
  displacementId : Option Nat
  materialFound : Bool
  displacementFound : Bool
  calls : List RileyCall
deriving Repr

/-- One iteration of the terminal loop of `_ConvertHdMaterialNetwork2ToRman`
(material.cpp:623-668): convert the network rooted at the terminal's
upstream node; on success, surface and volume terminals create or modify
the Riley material, a displacement terminal creates or modifies the Riley
displacement; conversion failure only logs.  The node vector is cleared
after every iteration, so each conversion starts empty. -/
def _ProcessTerminal (sdrRegistry : SdrRegistryT) (env : AssetResolveEnv)
    (sink : RileySink) (network : HdMaterialNetwork2) (st : RmanConvState)
    (terminal : String × Connection) : RmanConvState :=
  let r := HdPrman_ConvertHdMaterialNetwork2ToRmanNodes sdrRegistry env network
    terminal.2.upstreamNode
  if r.1 then
    if terminal.1 = "surface" ∨ terminal.1 = "volume" then
      match st.materialId with
      | none =>
        let ret := sink.createMaterial r.2
        { st with materialFound := true, materialId := ret,
                  calls := st.calls ++ [.createMaterial r.2 ret] }
      | some mid =>
        { st with materialFound := true,
                  calls := st.calls ++ [.modifyMaterial mid r.2] }
    else if terminal.1 = "displacement" then
      match st.displacementId with
      | none =>
        let ret := sink.createDisplacement r.2
        { st with displacementFound := true, displacementId := ret,
                  calls := st.calls ++ [.createDisplacement r.2 ret] }
      | some did =>
        { st with displacementFound := true,
                  calls := st.calls ++ [.modifyDisplacement did r.2] }
    else st
  else st

/-- `_ConvertHdMaterialNetwork2ToRman` (material.cpp:610-678): process every
terminal, then tear down whichever of the material/displacement resources
no terminal mapped to (the delete call is issued with the current
identifier — even an invalid one — and the identifier is reset to the
invalid sentinel). -/
def _ConvertHdMaterialNetwork2ToRman (sdrRegistry : SdrRegistryT)
    (env : AssetResolveEnv) (sink : RileySink) (network : HdMaterialNetwork2)
    (materialId displacementId : Option Nat) : RmanConvState :=
  let st0 : RmanConvState :=
    { materialId := materialId, displacementId := displacementId,
      materialFound := false, displacementFound := false, calls := [] }
  let st := network.terminals.foldl (_ProcessTerminal sdrRegistry env sink network) st0
  let st1 :=
    if st.materialFound then st
    else { st with materialId := none,
                   calls := st.calls ++ [.deleteMaterial st.materialId] }
  if st1.displacementFound then st1
  else { st1 with displacementId := none,
                  calls := st1.calls ++ [.deleteDisplacement st1.displacementId] }

/-! ## HdStGLSLFXShader::Reload (glslfxShader.cpp:44-57) -/

/-- `HioGlslfx`, reduced to the accessors `Reload` calls: `GetFilePath`,
`IsValid`, `GetSurfaceSource`, `GetDisplacementSource`. -/
structure HioGlslfx where
  filePath : String
  isValid : Bool
  surfaceSource : String
  displacementSource : String
deriving DecidableEq, Repr

/-- `HdStGLSLFXShader`: the held glslfx object and the two shader sources
registered through the base-class `_SetSource` (keyed by
`HdShaderTokens->fragmentShader` and `HdShaderTokens->geometryShader`,
the only two tokens this class ever registers). -/
structure HdStGLSLFXShader where
  glslfx : HioGlslfx
  fragmentSource : String
  geometrySource : String
deriving DecidableEq, Repr

/-- `HdStGLSLFXShader::Reload` (glslfxShader.cpp:44-57): construct a new
`HioGlslfx` from the stored file path (`loadGlslfx` models the
constructor's file read); only when the reloaded file is valid are the
stored object and both registered sources replaced. -/
def HdStGLSLFXShader_Reload (loadGlslfx : String → HioGlslfx)
    (sh : HdStGLSLFXShader) : HdStGLSLFXShader :=
  let newGlslFx := loadGlslfx sh.glslfx.filePath
  if newGlslFx.isValid then
    { glslfx := newGlslFx,
      fragmentSource := newGlslFx.surfaceSource,
      geometrySource := newGlslFx.displacementSource }
  else sh

/-! ## HdxOitVolumeRenderTask::Execute (oitVolumeRenderTask.cpp:87-172) -/

/-- The two GL capability bits `Execute` saves and restores. -/
structure GLState where
  multisample : Bool
  pointSmooth : Bool
deriving DecidableEq, Repr

/-- The guard conditions `Execute` tests before reaching the
translucent-pixels pass: `_isOitEnabled`, `HdxRenderTask::_HasDrawItems()`,
`TF_VERIFY(renderPassState)`, the `HdStRenderPassState` downcast, and
`AddOitBufferBindings`. -/
structure OitExecEnv where
  isOitEnabled : Bool
  hasDrawItems : Bool
  renderPassStateValid : Bool
  isHdStRenderPassState : Bool
  addOitBufferBindingsOk : Bool

/-- `HdxOitVolumeRenderTask::Execute` (oitVolumeRenderTask.cpp:87-172),
restricted to its effect on the two saved GL capability bits.  On the main
path: save `GL_MULTISAMPLE` and disable it, save `GL_POINT_SMOOTH` and
enable it, run the translucent-pixels pass (`HdxRenderTask::Execute`,
which issues its drawing through the render pass state and leaves these
two capability enables alone), then conditionally re-enable multisample
and re-disable point smooth.  Returns the final GL state and whether the
translucent-pixels pass was reached. -/
def HdxOitVolumeRenderTask_Execute (env : OitExecEnv) (gl : GLState) :
    GLState × Bool :=
  if ¬env.isOitEnabled ∨ ¬env.hasDrawItems then (gl, false)
  else if ¬env.renderPassStateValid then (gl, false)
  else if ¬env.isHdStRenderPassState then (gl, false)
  else if ¬env.addOitBufferBindingsOk then (gl, false)
  else
    let oldMSAA := gl.multisample
    let gl1 : GLState := { gl with multisample := false }
    let oldPointSmooth := gl1.pointSmooth
    let gl2 : GLState := { gl1 with pointSmooth := true }
    let gl3 := gl2
    let gl4 : GLState := if oldMSAA then { gl3 with multisample := true } else gl3
    let gl5 : GLState :=
      if ¬oldPointSmooth then { gl4 with pointSmooth := false } else gl4
    (gl5, true)

/-! ## Graph notions used by the specification claims -/

/-- Handles (node paths) of an emitted shading-node list. -/
def snHandles (L : List RileyShadingNode) : List SdfPathT := L.map (·.handle)

/-- Direct upstream dependency: the network has a node at `x` and one of
its input connections references `y` as upstream node. -/
def edgeTo (network : HdMaterialNetwork2) (x y : SdfPathT) : Bool :=
  match alookup network.nodes x with
  | none => false
  | some node =>
    node.inputConnections.any fun connEntry =>
      connEntry.2.any fun e => e.upstreamNode == y

/-- Acyclicity of the upstream-dependency graph. -/
def AcyclicNetwork (network : HdMaterialNetwork2) : Prop :=
  ∀ x, ¬ Relation.TransGen (fun a b => edgeTo network a b = true) x x

/-! ## Fuel accounting: the C++ recursion measure made explicit -/

/-- Number of network nodes not yet in the visited set. -/
def freshCount (network : HdMaterialNetwork2) (visited : List SdfPathT) : Nat :=
  (network.nodes.map Prod.fst).countP (fun p => decide (p ∉ visited))

/-- Invariant of one `_ConvertNodes` call at `(nodePath, visited)` with
result `r = (flag, emitted, delta)`: the delta is fresh, emitted handles
are freshly visited and distinct, the node itself ends up visited, every
emitted node is reachable from `nodePath`, every direct dependency of an
emitted node ends up visited, and an emitted node's direct dependency that
is emitted at or after it closes a dependency cycle. -/
structure NodeCallInv (network : HdMaterialNetwork2) (nodePath : SdfPathT)
    (visited : List SdfPathT)
    (r : Bool × List RileyShadingNode × List SdfPathT) : Prop where
  delta_fresh : ∀ d ∈ r.2.2, d ∉ visited
  handles_sub : ∀ x ∈ snHandles r.2.1, x ∈ r.2.2
  handles_nodup : (snHandles r.2.1).Nodup
  self_visited : nodePath ∈ r.2.2 ∨ nodePath ∈ visited
  reach : ∀ x ∈ snHandles r.2.1,
    Relation.ReflTransGen (fun a b => edgeTo network a b = true) nodePath x
  deps_visited : ∀ x ∈ snHandles r.2.1, ∀ y, edgeTo network x y = true →
    y ∈ r.2.2 ∨ y ∈ visited
  order : ∀ s1 x s2, r.2.1 = s1 ++ x :: s2 → ∀ y, edgeTo network x.handle y = true →
    y ∈ snHandles (x :: s2) →
    Relation.TransGen (fun a b => edgeTo network a b = true) y x.handle

/-- Invariant of the upstream pre-traversal loop over a connection list. -/
structure ConnsCallInv (network : HdMaterialNetwork2) (conns : List Connection)
    (visited : List SdfPathT) (r : List RileyShadingNode × List SdfPathT) : Prop where
  delta_fresh : ∀ d ∈ r.2, d ∉ visited
  handles_sub : ∀ x ∈ snHandles r.1, x ∈ r.2
  handles_nodup : (snHandles r.1).Nodup
  conns_visited : ∀ c ∈ conns, c.upstreamNode ∈ r.2 ∨ c.upstreamNode ∈ visited
  reach : ∀ x ∈ snHandles r.1, ∃ c ∈ conns,
    Relation.ReflTransGen (fun a b => edgeTo network a b = true) c.upstreamNode x
  deps_visited : ∀ x ∈ snHandles r.1, ∀ y, edgeTo network x y = true →
    y ∈ r.2 ∨ y ∈ visited
  order : ∀ s1 x s2, r.1 = s1 ++ x :: s2 → ∀ y, edgeTo network x.handle y = true →
    y ∈ snHandles (x :: s2) →
    Relation.TransGen (fun a b => edgeTo network a b = true) y x.handle

/-- Two visited sets that agree on membership of every network node key. -/
def KeyAgree (network : HdMaterialNetwork2) (v1 v2 : List SdfPathT) : Prop :=
  ∀ k, (alookup network.nodes k).isSome = true → (k ∈ v1 ↔ k ∈ v2)

/-- Relation between a network and the same network with one dangling
connection (`c`, whose upstream path is not a node key) removed from the
input connections of node `n`.  The fields are exactly what the
bisimulation argument consumes. -/
structure DanglingDropSetup (net net2 : HdMaterialNetwork2) (n : SdfPathT)
    (c : Connection) (cpre cpost : List (String × List Connection))
    (inName : String) (cs1 cs2 : List Connection) : Prop where
  keys_eq : ∀ k, (alookup net2.nodes k).isSome = (alookup net.nodes k).isSome
  lookup_eq : ∀ k, k ≠ n → alookup net2.nodes k = alookup net.nodes k
  at_n : alookup net.nodes n = alookup net2.nodes n ∨
    ∃ nodeN nodeN2, alookup net.nodes n = some nodeN ∧
      alookup net2.nodes n = some nodeN2 ∧
      nodeN.nodeTypeId = nodeN2.nodeTypeId ∧
      nodeN.parameters = nodeN2.parameters ∧
      nodeN.inputConnections = cpre ++ (inName, cs1 ++ c :: cs2) :: cpost ∧
      nodeN2.inputConnections = cpre ++ (inName, cs1 ++ cs2) :: cpost
  dangling : alookup net.nodes c.upstreamNode = none
  len_eq : net.nodes.length = net2.nodes.length

/-! ## Concrete fixtures (a small registry and diamond network) -/

/-- A concrete asset-resolution environment. -/
def wEnv : AssetResolveEnv :=
  { getExtension := fun _ => "", isSupportedImageFile := fun _ => false,
    archLibrarySuffix := ".so" }

/-- The option table of claim C6. -/
def wEnumOptions : List (String × String) := [("low", "0"), ("med", "1"), ("high", "2")]

/-- A concrete registry with one pattern shader and one surface shader. -/
def wReg : SdrRegistryT := fun id =>
  if id = "TestPattern" then
    some { context := "pattern", name := "TestPattern",
           resolvedImplementationURI := "/shaders/pattern.oso",
           implementationName := "TestPattern",
           shaderInputs :=
             [("in1", { propType := "color", implementationName := "in1", options := [] }),
              ("enumIn", { propType := "int", implementationName := "enumIn",
                           options := wEnumOptions }),
              ("fArr", { propType := "float", implementationName := "fArr", options := [] }),
              ("sIn", { propType := "struct", implementationName := "sIn", options := [] })],
           shaderOutputs :=
             [("out", { propType := "color", implementationName := "resultC",
                        options := [] })] }
  else if id = "TestSurface" then
    some { context := "surface", name := "TestSurface",
           resolvedImplementationURI := "/shaders/surface.oso",
           implementationName := "TestSurface",
           shaderInputs :=
             [("cIn", { propType := "color", implementationName := "cIn", options := [] })],
           shaderOutputs := [] }
  else none

/-- A diamond-shaped network: the surface node `/a` feeds from `/b` and
`/c`, which both feed from `/d`. -/
def wNet : HdMaterialNetwork2 :=
  { nodes :=
      [("/a", { nodeTypeId := "TestSurface", parameters := [],
                inputConnections := [("cIn", [⟨"/b", "out"⟩, ⟨"/c", "out"⟩])] }),
       ("/b", { nodeTypeId := "TestPattern", parameters := [],
                inputConnections := [("in1", [⟨"/d", "out"⟩])] }),
       ("/c", { nodeTypeId := "TestPattern", parameters := [],
                inputConnections := [("in1", [⟨"/d", "out"⟩])] }),
       ("/d", { nodeTypeId := "TestPattern",
                parameters := [("enumIn", .token "high"), ("fArr", .intArray [1])],
                inputConnections := [] })],
    terminals := [("surface", ⟨"/a", "out"⟩)] }

/-- Rank function witnessing that `wNet` is acyclic. -/
def wRank : SdfPathT → Nat := fun x =>
  if x = "/a" then 3 else if x = "/b" then 2 else if x = "/c" then 2
  else if x = "/d" then 1 else 0

/-- A one-node network whose node carries an enum parameter with a label
that is absent from the declared option table. -/
def wNetEnum : HdMaterialNetwork2 :=
  { nodes := [("/e", { nodeTypeId := "TestPattern",
                       parameters := [("enumIn", .token "nope")],
                       inputConnections := [] })],
    terminals := [] }

/-- Network with a dangling connection: `/r` references the non-existent
`/missing` and the existing `/u`. -/
def wNetDangling : HdMaterialNetwork2 :=
  { nodes :=
      [("/r", { nodeTypeId := "TestSurface", parameters := [],
                inputConnections := [("cIn", [⟨"/missing", "out"⟩, ⟨"/u", "out"⟩])] }),
       ("/u", { nodeTypeId := "TestPattern", parameters := [],
                inputConnections := [] })],
    terminals := [] }

/-- The same network with the dangling connection removed. -/
def wNetDangling2 : HdMaterialNetwork2 :=
  { nodes :=
      [("/r", { nodeTypeId := "TestSurface", parameters := [],
                inputConnections := [("cIn", [⟨"/u", "out"⟩])] }),
       ("/u", { nodeTypeId := "TestPattern", parameters := [],
                inputConnections := [] })],
    terminals := [] }

/-- A concrete Riley sink. -/
def wSink : RileySink :=
  { createMaterial := fun _ => some 1, createDisplacement := fun _ => some 2 }

/-- A network with no terminals at all. -/
def wNetNoTerminals : HdMaterialNetwork2 := { nodes := [], terminals := [] }

/-- A glslfx loader whose files never validate. -/
def wInvalidLoader : String → HioGlslfx := fun p =>
  { filePath := p, isValid := false, surfaceSource := "S", displacementSource := "D" }

/-- A shader state as built from an initially valid glslfx. -/
def wShader : HdStGLSLFXShader :=
  { glslfx := { filePath := "/shaders/mat.glslfx", isValid := true,
                surfaceSource := "surf0", displacementSource := "disp0" },
    fragmentSource := "surf0", geometrySource := "disp0" }

/-- An OIT execute environment in which every guard passes. -/
def wOitEnv : OitExecEnv :=
  { isOitEnabled := true, hasDrawItems := true, renderPassStateValid := true,
    isHdStRenderPassState := true, addOitBufferBindingsOk := true }

theorem acyclic_of_rank (network : HdMaterialNetwork2) (f : SdfPathT → Nat)
    (h : ∀ x y, edgeTo network x y = true → f y < f x) :
    AcyclicNetwork network := by
  intro x hx
  have key : ∀ a b, Relation.TransGen (fun a b => edgeTo network a b = true) a b →
      f b < f a := by
    intro a b hab
    induction hab with
    | single h1 => exact h _ _ h1
    | tail _ h1 ih => exact (h _ _ h1).trans ih
  exact absurd (key x x hx) (lt_irrefl _)

theorem alookup_append {α : Type} (l1 l2 : List (String × α)) (k : String) :
    alookup (l1 ++ l2) k = (alookup l1 k).or (alookup l2 k) := by
  induction l1 with
  | nil => simp [alookup]
  | cons hd tl ih =>
    rcases hd with ⟨a, b⟩
    by_cases hk : a = k
    · simp [alookup, hk]
    · simp [alookup, hk, ih]

theorem alookup_some_mem {α : Type} (l : List (String × α)) (k : String) (v : α)
    (h : alookup l k = some v) : k ∈ l.map Prod.fst := by
  induction l with
  | nil => simp [alookup] at h
  | cons hd tl ih =>
    by_cases hk : hd.1 = k
    · simp [hk.symm]
    · cases hd
      simp only [alookup, if_neg hk] at h
      simp [ih h]

theorem edgeTo_of_mem (network : HdMaterialNetwork2) (x : SdfPathT)
    (node : HdMaterialNode2) (connEntry : String × List Connection) (e : Connection)
    (hx : alookup network.nodes x = some node)
    (hce : connEntry ∈ node.inputConnections) (he : e ∈ connEntry.2) :
    edgeTo network x e.upstreamNode = true := by
  unfold edgeTo
  rw [hx]
  rw [List.any_eq_true]
  exact ⟨connEntry, hce, by rw [List.any_eq_true]; exact ⟨e, he, by simp⟩⟩

theorem edgeTo_dest (network : HdMaterialNetwork2) (x y : SdfPathT)
    (h : edgeTo network x y = true) :
    ∃ node, alookup network.nodes x = some node ∧
      ∃ connEntry ∈ node.inputConnections, ∃ e ∈ connEntry.2, e.upstreamNode = y := by
  unfold edgeTo at h
  rcases hx : alookup network.nodes x with _ | node
  · rw [hx] at h; simp at h
  · rw [hx] at h
    rw [List.any_eq_true] at h
    rcases h with ⟨connEntry, hce, h2⟩
    rw [List.any_eq_true] at h2
    rcases h2 with ⟨e, he, h3⟩
    exact ⟨node, rfl, connEntry, hce, e, he, by simpa using h3⟩

theorem freshCount_superset (network : HdMaterialNetwork2)
    (v1 v2 : List SdfPathT) (h : ∀ a, a ∈ v1 → a ∈ v2) :
    freshCount network v2 ≤ freshCount network v1 := by
  apply List.countP_mono_left
  intro a _ ha
  simp only [decide_eq_true_eq] at ha ⊢
  exact fun hmem => ha (h a hmem)

theorem freshCount_append (network : HdMaterialNetwork2)
    (extra visited : List SdfPathT) :
    freshCount network (extra ++ visited) ≤ freshCount network visited := by
  apply freshCount_superset
  intro a ha
  exact List.mem_append_right _ ha

theorem countP_lt_of_mem {α : Type} [DecidableEq α] (l : List α) (x : α)
    (visited : List α) (hx : x ∈ l) (hnv : x ∉ visited) :
    l.countP (fun p => decide (p ∉ x :: visited)) <
      l.countP (fun p => decide (p ∉ visited)) := by
  induction l with
  | nil => simp at hx
  | cons hd tl ih =>
    rw [List.countP_cons, List.countP_cons]
    have hmono : tl.countP (fun p => decide (p ∉ x :: visited)) ≤
        tl.countP (fun p => decide (p ∉ visited)) := by
      apply List.countP_mono_left
      intro a _ ha
      simp only [decide_eq_true_eq, List.mem_cons] at ha ⊢
      exact fun hmem => ha (Or.inr hmem)
    rcases List.mem_cons.mp hx with heq | htl
    · have h1 : (decide (hd ∉ x :: visited)) = false := by
        simp [← heq]
      have h2 : (decide (hd ∉ visited)) = true := by
        rw [← heq]; simpa using hnv
      rw [h1, h2]
      simp only [Bool.false_eq_true, if_false, if_true]
      omega
    · have hlt := ih htl
      by_cases hv : hd ∈ visited
      · have e1 : (decide (hd ∉ x :: visited)) = false := by simp [hv]
        have e2 : (decide (hd ∉ visited)) = false := by simp [hv]
        rw [e1, e2]
        simp only [Bool.false_eq_true, if_false]
        omega
      · have e2 : (decide (hd ∉ visited)) = true := by simpa using hv
        rw [e2]
        have hle : (if (decide (hd ∉ x :: visited)) = true then 1 else 0) ≤ 1 := by
          split <;> omega
        simp only [if_true]
        split <;> omega

theorem freshCount_cons_lt (network : HdMaterialNetwork2) (x : SdfPathT)
    (visited : List SdfPathT) (hx : x ∈ network.nodes.map Prod.fst)
    (hnv : x ∉ visited) :
    freshCount network (x :: visited) < freshCount network visited :=
  countP_lt_of_mem _ x visited hx hnv

theorem freshCount_le_length (network : HdMaterialNetwork2)
    (visited : List SdfPathT) :
    freshCount network visited ≤ network.nodes.length := by
  calc freshCount network visited ≤ (network.nodes.map Prod.fst).length :=
        List.countP_le_length _
    _ = network.nodes.length := List.length_map _ _

/-! ## Invariants of the depth-first traversal -/

theorem append_eq_append_cons_cases {α : Type} (L1 L2 s1 s2 : List α) (x : α)
    (h : L1 ++ L2 = s1 ++ x :: s2) :
    (∃ t, L1 = s1 ++ x :: t ∧ s2 = t ++ L2) ∨
    (∃ t, s1 = L1 ++ t ∧ L2 = t ++ x :: s2) := by
  induction L1 generalizing s1 with
  | nil =>
    right
    exact ⟨s1, by simp, by simpa using h⟩
  | cons a L1 ih =>
    cases s1 with
    | nil =>
      simp only [List.nil_append, List.cons_append] at h
      injection h with h1 h2
      left
      exact ⟨L1, by simp [h1], h2.symm⟩
    | cons b s1 =>
      simp only [List.cons_append] at h
      injection h with hab h2
      rcases ih s1 h2 with ⟨t, h3, h4⟩ | ⟨t, h3, h4⟩
      · exact Or.inl ⟨t, by simp [hab, h3], h4⟩
      · exact Or.inr ⟨t, by simp [hab, h3], h4⟩

theorem append_singleton_eq_append_cons_cases {α : Type} (L1 s1 s2 : List α)
    (a x : α) (h : L1 ++ [a] = s1 ++ x :: s2) :
    (s1 = L1 ∧ x = a ∧ s2 = []) ∨ (∃ t, s2 = t ++ [a] ∧ L1 = s1 ++ x :: t) := by
  rcases append_eq_append_cons_cases L1 [a] s1 s2 x h with ⟨t, h1, h2⟩ | ⟨t, h1, h2⟩
  · exact Or.inr ⟨t, h2, h1⟩
  · cases t with
    | nil =>
      injection h2 with h3 h4
      exact Or.inl ⟨by simpa using h1, h3.symm, h4.symm⟩
    | cons c t =>
      injection h2 with h3 h4
      exact absurd h4.symm (by simp)

theorem _BuildShadingNode_handle (sdrRegistry : SdrRegistryT) (env : AssetResolveEnv)
    (network : HdMaterialNetwork2) (nodePath : SdfPathT) (node : HdMaterialNode2)
    (sn : RileyShadingNode)
    (h : _BuildShadingNode sdrRegistry env network nodePath node = some sn) :
    sn.handle = nodePath := by
  unfold _BuildShadingNode at h
  split at h
  · simp at h
  · split at h
    · simp at h
    · split at h
      · simp at h
      · simp only [Option.some.injEq] at h
        rw [← h]

theorem snHandles_append (A B : List RileyShadingNode) :
    snHandles (A ++ B) = snHandles A ++ snHandles B := List.map_append _ _ _

theorem _ConvertUpstreamNodes_inv (network : HdMaterialNetwork2) (B : Nat)
    (f : SdfPathT → List SdfPathT → Bool × List RileyShadingNode × List SdfPathT)
    (hf : ∀ p v, freshCount network v ≤ B → NodeCallInv network p v (f p v)) :
    ∀ (conns : List Connection) (visited : List SdfPathT),
      freshCount network visited ≤ B →
      ConnsCallInv network conns visited (_ConvertUpstreamNodes f conns visited) := by
  intro conns
  induction conns with
  | nil =>
    intro visited hv
    refine ⟨?_, ?_, ?_, ?_, ?_, ?_, ?_⟩ <;> simp [_ConvertUpstreamNodes, snHandles]
  | cons c rest ih =>
    intro visited hv
    have inv1 := hf c.upstreamNode visited hv
    have hv2 : freshCount network ((f c.upstreamNode visited).2.2 ++ visited) ≤ B :=
      le_trans (freshCount_append network _ _) hv
    have inv2 := ih ((f c.upstreamNode visited).2.2 ++ visited) hv2
    have hres : _ConvertUpstreamNodes f (c :: rest) visited
        = ((f c.upstreamNode visited).2.1
            ++ (_ConvertUpstreamNodes f rest ((f c.upstreamNode visited).2.2 ++ visited)).1,
           (_ConvertUpstreamNodes f rest ((f c.upstreamNode visited).2.2 ++ visited)).2
            ++ (f c.upstreamNode visited).2.2) := rfl
    rw [hres]
    revert inv1 inv2
    generalize f c.upstreamNode visited = r1
    generalize _ConvertUpstreamNodes f rest (r1.2.2 ++ visited) = r2
    intro inv1 inv2
    refine ⟨?_, ?_, ?_, ?_, ?_, ?_, ?_⟩
    · intro d hd
      rcases List.mem_append.mp hd with h | h
      · exact fun hmem => inv2.delta_fresh d h (List.mem_append_right _ hmem)
      · exact inv1.delta_fresh d h
    · intro x hx
      rw [snHandles_append] at hx
      rcases List.mem_append.mp hx with h | h
      · exact List.mem_append_right _ (inv1.handles_sub x h)
      · exact List.mem_append_left _ (inv2.handles_sub x h)
    · rw [snHandles_append]
      refine List.Nodup.append inv1.handles_nodup inv2.handles_nodup ?_
      intro a ha1 ha2
      exact inv2.delta_fresh a (inv2.handles_sub a ha2)
        (List.mem_append_left _ (inv1.handles_sub a ha1))
    · intro c' hc'
      rcases List.mem_cons.mp hc' with heq | hmem
    -- head connection: its upstream node is visited by the head call
      · rw [heq]
        rcases inv1.self_visited with h | h
        · exact Or.inl (List.mem_append_right _ h)
        · exact Or.inr h
      · rcases inv2.conns_visited c' hmem with h | h
        · exact Or.inl (List.mem_append_left _ h)
        · rcases List.mem_append.mp h with h2 | h2
          · exact Or.inl (List.mem_append_right _ h2)
          · exact Or.inr h2
    · intro x hx
      rw [snHandles_append] at hx
      rcases List.mem_append.mp hx with h | h
      · exact ⟨c, List.mem_cons_self _ _, inv1.reach x h⟩
      · obtain ⟨c', hc', hr⟩ := inv2.reach x h
        exact ⟨c', List.mem_cons_of_mem _ hc', hr⟩
    · intro x hx y hy
      rw [snHandles_append] at hx
      rcases List.mem_append.mp hx with h | h
      · rcases inv1.deps_visited x h y hy with h2 | h2
        · exact Or.inl (List.mem_append_right _ h2)
        · exact Or.inr h2
      · rcases inv2.deps_visited x h y hy with h2 | h2
        · exact Or.inl (List.mem_append_left _ h2)
        · rcases List.mem_append.mp h2 with h3 | h3
          · exact Or.inl (List.mem_append_right _ h3)
          · exact Or.inr h3
    · intro s1 x s2 hsplit y hy hmem
      rcases append_eq_append_cons_cases _ _ _ _ _ hsplit with ⟨t, h1, h2⟩ | ⟨t, h1, h2⟩
      · have hmem2 : y ∈ snHandles (x :: t) ∨ y ∈ snHandles r2.1 := by
          simp only [snHandles, List.map_cons, List.mem_cons] at hmem ⊢
          rcases hmem with h3 | h3
          · exact Or.inl (Or.inl h3)
          · rw [h2, List.map_append, List.mem_append] at h3
            rcases h3 with h4 | h4
            · exact Or.inl (Or.inr h4)
            · exact Or.inr h4
        rcases hmem2 with h3 | h3
        · exact inv1.order s1 x t h1 y hy h3
        · exfalso
          have hx1 : x.handle ∈ snHandles r1.2.1 := by
            rw [h1]
            exact List.mem_map_of_mem _ (by simp)
          have hyv : y ∈ r2.2 := inv2.handles_sub y h3
          rcases inv1.deps_visited x.handle hx1 y hy with h4 | h4
          · exact inv2.delta_fresh y hyv (List.mem_append_left _ h4)
          · exact inv2.delta_fresh y hyv (List.mem_append_right _ h4)
      · exact inv2.order t x s2 h2 y hy hmem

theorem _ConvertNodes_inv (sdrRegistry : SdrRegistryT) (env : AssetResolveEnv)
    (network : HdMaterialNetwork2) :
    ∀ (fuel : Nat) (nodePath : SdfPathT) (visited : List SdfPathT),
      freshCount network visited < fuel →
      NodeCallInv network nodePath visited
        (_ConvertNodes sdrRegistry env network fuel nodePath visited) := by
  intro fuel
  induction fuel with
  | zero => intro _ _ h; exact absurd h (Nat.not_lt_zero _)
  | succ fuel ih =>
    intro nodePath visited hfuel
    by_cases hvis : nodePath ∈ visited
    · have hstep : _ConvertNodes sdrRegistry env network (fuel + 1) nodePath visited
          = (false, [], []) := by
        simp [_ConvertNodes, hvis]
      rw [hstep]
      exact ⟨by simp, by simp [snHandles], by simp [snHandles], Or.inr hvis,
        by simp [snHandles], by simp [snHandles], by intro s1 x s2 h; simp at h⟩
    · rcases hlook : alookup network.nodes nodePath with _ | node
      · have hstep : _ConvertNodes sdrRegistry env network (fuel + 1) nodePath visited
            = (false, [], [nodePath]) := by
          simp [_ConvertNodes, hvis, hlook]
        rw [hstep]
        exact ⟨by simpa using hvis, by simp [snHandles], by simp [snHandles],
          Or.inl (by simp), by simp [snHandles], by simp [snHandles],
          by intro s1 x s2 h; simp at h⟩
      · have hkey : nodePath ∈ network.nodes.map Prod.fst :=
          alookup_some_mem _ _ _ hlook
        have hlt : freshCount network (nodePath :: visited) <
            freshCount network visited :=
          freshCount_cons_lt network nodePath visited hkey hvis
        have hfle : freshCount network visited ≤ fuel := Nat.lt_succ_iff.mp hfuel
        have hf : ∀ p v,
            freshCount network v ≤ freshCount network (nodePath :: visited) →
            NodeCallInv network p v (_ConvertNodes sdrRegistry env network fuel p v) := by
          intro p v hv
          exact ih p v (by omega)
        have cinv := _ConvertUpstreamNodes_inv network
          (freshCount network (nodePath :: visited)) _ hf
          (node.inputConnections.flatMap Prod.snd) (nodePath :: visited) (le_refl _)
        have hedge : ∀ c ∈ node.inputConnections.flatMap Prod.snd,
            edgeTo network nodePath c.upstreamNode = true := by
          intro c hc
          obtain ⟨ce, hce, hcc⟩ := List.mem_flatMap.mp hc
          exact edgeTo_of_mem network nodePath node ce c hlook hce hcc
        have hdest : ∀ y, edgeTo network nodePath y = true →
            ∃ c ∈ node.inputConnections.flatMap Prod.snd, c.upstreamNode = y := by
          intro y hy
          obtain ⟨node', hlook', ce, hce, e, he, heq⟩ := edgeTo_dest network _ _ hy
          rw [hlook] at hlook'
          injection hlook' with hnn
          refine ⟨e, List.mem_flatMap.mpr ⟨ce, ?_, he⟩, heq⟩
          rw [hnn]; exact hce
        rcases hbuild : _BuildShadingNode sdrRegistry env network nodePath node
          with _ | sn
        · have hstep : _ConvertNodes sdrRegistry env network (fuel + 1) nodePath visited
              = (false,
                 (_ConvertUpstreamNodes (_ConvertNodes sdrRegistry env network fuel)
                   (node.inputConnections.flatMap Prod.snd) (nodePath :: visited)).1,
                 (_ConvertUpstreamNodes (_ConvertNodes sdrRegistry env network fuel)
                   (node.inputConnections.flatMap Prod.snd) (nodePath :: visited)).2
                  ++ [nodePath]) := by
            simp [_ConvertNodes, hvis, hlook, hbuild]
          rw [hstep]
          revert cinv
          generalize _ConvertUpstreamNodes (_ConvertNodes sdrRegistry env network fuel)
            (node.inputConnections.flatMap Prod.snd) (nodePath :: visited) = child
          intro cinv
          refine ⟨?_, ?_, ?_, ?_, ?_, ?_, ?_⟩
          · intro d hd
            rcases List.mem_append.mp hd with h | h
            · exact fun hm => cinv.delta_fresh d h (List.mem_cons_of_mem _ hm)
            · rw [List.mem_singleton.mp h]; exact hvis
          · intro x hx
            exact List.mem_append_left _ (cinv.handles_sub x hx)
          · exact cinv.handles_nodup
          · exact Or.inl (List.mem_append_right _ (by simp))
          · intro x hx
            obtain ⟨c, hc, hr⟩ := cinv.reach x hx
            exact Relation.ReflTransGen.head (hedge c hc) hr
          · intro x hx y hy
            rcases cinv.deps_visited x hx y hy with h | h
            · exact Or.inl (List.mem_append_left _ h)
            · rcases List.mem_cons.mp h with h2 | h2
              · rw [h2]; exact Or.inl (List.mem_append_right _ (by simp))
              · exact Or.inr h2
          · exact cinv.order
        · have hhandle : sn.handle = nodePath :=
            _BuildShadingNode_handle _ _ _ _ _ _ hbuild
          have hstep : _ConvertNodes sdrRegistry env network (fuel + 1) nodePath visited
              = (true,
                 (_ConvertUpstreamNodes (_ConvertNodes sdrRegistry env network fuel)
                   (node.inputConnections.flatMap Prod.snd) (nodePath :: visited)).1
                  ++ [sn],
                 (_ConvertUpstreamNodes (_ConvertNodes sdrRegistry env network fuel)
                   (node.inputConnections.flatMap Prod.snd) (nodePath :: visited)).2
                  ++ [nodePath]) := by
            simp [_ConvertNodes, hvis, hlook, hbuild]
          rw [hstep]
          revert cinv
          generalize _ConvertUpstreamNodes (_ConvertNodes sdrRegistry env network fuel)
            (node.inputConnections.flatMap Prod.snd) (nodePath :: visited) = child
          intro cinv
          have hsnh : snHandles (child.1 ++ [sn]) = snHandles child.1 ++ [nodePath] := by
            rw [snHandles_append]
            simp [snHandles, hhandle]
          refine ⟨?_, ?_, ?_, ?_, ?_, ?_, ?_⟩
          · intro d hd
            rcases List.mem_append.mp hd with h | h
            · exact fun hm => cinv.delta_fresh d h (List.mem_cons_of_mem _ hm)
            · rw [List.mem_singleton.mp h]; exact hvis
          · intro x hx
            rw [hsnh] at hx
            rcases List.mem_append.mp hx with h | h
            · exact List.mem_append_left _ (cinv.handles_sub x h)
            · exact List.mem_append_right _ h
          · rw [hsnh]
            refine List.Nodup.append cinv.handles_nodup (by simp) ?_
            intro a ha1 ha2
            rw [List.mem_singleton.mp ha2] at ha1
            exact cinv.delta_fresh nodePath (cinv.handles_sub nodePath ha1) (by simp)
          · exact Or.inl (List.mem_append_right _ (by simp))
          · intro x hx
            rw [hsnh] at hx
            rcases List.mem_append.mp hx with h | h
            · obtain ⟨c, hc, hr⟩ := cinv.reach x h
              exact Relation.ReflTransGen.head (hedge c hc) hr
            · rw [List.mem_singleton.mp h]
          · intro x hx y hy
            rw [hsnh] at hx
            rcases List.mem_append.mp hx with h | h
            · rcases cinv.deps_visited x h y hy with h2 | h2
              · exact Or.inl (List.mem_append_left _ h2)
              · rcases List.mem_cons.mp h2 with h3 | h3
                · rw [h3]; exact Or.inl (List.mem_append_right _ (by simp))
                · exact Or.inr h3
            · rw [List.mem_singleton.mp h] at hy
              obtain ⟨c, hc, hceq⟩ := hdest y hy
              rcases cinv.conns_visited c hc with h2 | h2
              · rw [← hceq]; exact Or.inl (List.mem_append_left _ h2)
              · rcases List.mem_cons.mp h2 with h3 | h3
                · rw [← hceq, h3]
                  exact Or.inl (List.mem_append_right _ (by simp))
                · rw [← hceq]; exact Or.inr h3
          · intro s1 x s2 hsplit y hy hmem
            rcases append_singleton_eq_append_cons_cases _ _ _ _ _ hsplit
              with ⟨hs1, hx, hs2⟩ | ⟨t, hs2, hchild⟩
            · rw [hs2] at hmem
              have hyn : y = nodePath := by
                simpa [snHandles, hx, hhandle] using hmem
              rw [hyn]
              rw [hx, hhandle] at hy ⊢
              rw [hyn] at hy
              exact Relation.TransGen.single hy
            · have hmem2 : y ∈ snHandles (x :: t) ∨ y = nodePath := by
                rw [hs2] at hmem
                simp only [snHandles, List.map_cons, List.map_append, List.mem_cons,
                  List.mem_append, List.map_cons] at hmem ⊢
                rcases hmem with h | h
                · exact Or.inl (Or.inl h)
                · rcases h with h | h
                  · exact Or.inl (Or.inr h)
                  · simp only [List.map_nil, List.mem_singleton] at h
                    rw [hhandle] at h
                    exact Or.inr (by simpa using h)
              rcases hmem2 with h | h
              · exact cinv.order s1 x t hchild y hy h
              · have hxh : x.handle ∈ snHandles child.1 := by
                  rw [hchild]
                  exact List.mem_map_of_mem _ (by simp)
                obtain ⟨c, hc, hr⟩ := cinv.reach x.handle hxh
                rw [h]
                exact Relation.TransGen.head' (hedge c hc) hr

theorem _ConvertUpstreamNodes_congr (network : HdMaterialNetwork2) (B : Nat)
    (f g : SdfPathT → List SdfPathT → Bool × List RileyShadingNode × List SdfPathT)
    (h : ∀ p v, freshCount network v ≤ B → f p v = g p v) :
    ∀ (conns : List Connection) (visited : List SdfPathT),
      freshCount network visited ≤ B →
      _ConvertUpstreamNodes f conns visited = _ConvertUpstreamNodes g conns visited := by
  intro conns
  induction conns with
  | nil => intro v _; rfl
  | cons c rest ih =>
    intro visited hv
    have h1 : f c.upstreamNode visited = g c.upstreamNode visited := h _ _ hv
    simp only [_ConvertUpstreamNodes]
    rw [h1, ih ((g c.upstreamNode visited).2.2 ++ visited)
      (le_trans (freshCount_append _ _ _) hv)]

/-- The fuel supplied by the entry point is never exhausted: any two fuel
values above the number of unvisited network nodes give the same result,
so the fuel parameter is a faithful rendering of the C++ recursion's
termination measure, not a semantic change. -/
theorem _ConvertNodes_fuel_sufficient (sdrRegistry : SdrRegistryT)
    (env : AssetResolveEnv) (network : HdMaterialNetwork2) :
    ∀ (fuel fuel' : Nat) (nodePath : SdfPathT) (visited : List SdfPathT),
      freshCount network visited < fuel → freshCount network visited < fuel' →
      _ConvertNodes sdrRegistry env network fuel nodePath visited
        = _ConvertNodes sdrRegistry env network fuel' nodePath visited := by
  intro fuel
  induction fuel with
  | zero => intro fuel' _ _ h _; exact absurd h (Nat.not_lt_zero _)
  | succ fuel ih =>
    intro fuel' nodePath visited hfuel hfuel'
    cases fuel' with
    | zero => exact absurd hfuel' (Nat.not_lt_zero _)
    | succ fuel2 =>
      by_cases hvis : nodePath ∈ visited
      · simp [_ConvertNodes, hvis]
      · rcases hlook : alookup network.nodes nodePath with _ | node
        · simp [_ConvertNodes, hvis, hlook]
        · have hkey : nodePath ∈ network.nodes.map Prod.fst :=
            alookup_some_mem _ _ _ hlook
          have hlt : freshCount network (nodePath :: visited) <
              freshCount network visited :=
            freshCount_cons_lt network nodePath visited hkey hvis
          have hcongr : _ConvertUpstreamNodes
              (_ConvertNodes sdrRegistry env network fuel)
              (node.inputConnections.flatMap Prod.snd) (nodePath :: visited)
              = _ConvertUpstreamNodes (_ConvertNodes sdrRegistry env network fuel2)
              (node.inputConnections.flatMap Prod.snd) (nodePath :: visited) := by
            apply _ConvertUpstreamNodes_congr network
              (freshCount network (nodePath :: visited))
            · intro p v hv
              exact ih fuel2 p v (by omega) (by omega)
            · exact le_refl _
          simp only [_ConvertNodes, if_neg hvis, hlook]
          rw [hcongr]

/-- Topological ordering extracted from the traversal invariant: in a list
whose emitted-after dependencies all close cycles, acyclicity forces every
direct dependency to appear strictly earlier. -/
theorem topo_order_of_inv (network : HdMaterialNetwork2)
    (L : List RileyShadingNode)
    (horder : ∀ s1 x s2, L = s1 ++ x :: s2 → ∀ y,
      edgeTo network x.handle y = true → y ∈ snHandles (x :: s2) →
      Relation.TransGen (fun a b => edgeTo network a b = true) y x.handle)
    (hacyc : AcyclicNetwork network) (i j : Nat)
    (hi : i < L.length) (hj : j < L.length)
    (hedge : edgeTo network (L.get ⟨i, hi⟩).handle (L.get ⟨j, hj⟩).handle = true) :
    j < i := by
  rcases Nat.lt_trichotomy j i with h | h | h
  · exact h
  · exfalso
    subst h
    exact hacyc _ (Relation.TransGen.single hedge)
  · exfalso
    have hdecomp : L = L.take i ++ L.get ⟨i, hi⟩ :: L.drop (i + 1) := by
      conv_lhs => rw [← List.take_append_drop i L]
      rw [List.drop_eq_getElem_cons hi]
      rfl
    have hjmem : L.get ⟨j, hj⟩ ∈ L.drop (i + 1) := by
      have hj2 : j - (i + 1) < (L.drop (i + 1)).length := by
        rw [List.length_drop]; omega
      have : (L.drop (i + 1)).get ⟨j - (i + 1), hj2⟩ = L.get ⟨j, hj⟩ := by
        simp only [List.get_eq_getElem, List.getElem_drop]
        congr 1
        omega
      rw [← this]
      exact List.get_mem _ _ _
    have hmem : (L.get ⟨j, hj⟩).handle ∈ snHandles (L.get ⟨i, hi⟩ :: L.drop (i + 1)) :=
      List.mem_map_of_mem _ (List.mem_cons_of_mem _ hjmem)
    have htg := horder (L.take i) (L.get ⟨i, hi⟩) (L.drop (i + 1)) hdecomp
      (L.get ⟨j, hj⟩).handle hedge hmem
    exact hacyc _ (Relation.TransGen.head hedge htg)

/-! ## Dangling-connection removal: setup and bisimulation -/

theorem flatMap_congr {α β : Type} (l : List α) (f g : α → List β)
    (h : ∀ a ∈ l, f a = g a) : l.flatMap f = l.flatMap g := by
  induction l with
  | nil => rfl
  | cons hd tl ih =>
    simp only [List.flatMap_cons]
    rw [h hd (List.mem_cons_self _ _), ih (fun a ha => h a (List.mem_cons_of_mem _ ha))]

/-- Composition of the upstream loop over an appended connection list. -/
theorem _ConvertUpstreamNodes_append
    (f : SdfPathT → List SdfPathT → Bool × List RileyShadingNode × List SdfPathT)
    (A B : List Connection) (visited : List SdfPathT) :
    _ConvertUpstreamNodes f (A ++ B) visited
      = ((_ConvertUpstreamNodes f A visited).1
          ++ (_ConvertUpstreamNodes f B ((_ConvertUpstreamNodes f A visited).2 ++ visited)).1,
         (_ConvertUpstreamNodes f B ((_ConvertUpstreamNodes f A visited).2 ++ visited)).2
          ++ (_ConvertUpstreamNodes f A visited).2) := by
  induction A generalizing visited with
  | nil => simp [_ConvertUpstreamNodes]
  | cons a A ih =>
    simp only [List.cons_append, _ConvertUpstreamNodes, List.append_eq]
    rw [ih ((f a.upstreamNode visited).2.2 ++ visited)]
    simp only [List.append_assoc]

/-- A call on a path that is not a node key emits nothing, returns false,
and at most inserts that path into the visited set. -/
theorem _ConvertNodes_missing (sdrRegistry : SdrRegistryT) (env : AssetResolveEnv)
    (network : HdMaterialNetwork2) (fuel : Nat) (q : SdfPathT)
    (visited : List SdfPathT) (hq : alookup network.nodes q = none) :
    ∃ δ, _ConvertNodes sdrRegistry env network fuel q visited = (false, [], δ)
      ∧ ∀ d ∈ δ, d = q := by
  cases fuel with
  | zero => exact ⟨[], rfl, by simp⟩
  | succ fuel =>
    by_cases hvis : q ∈ visited
    · exact ⟨[], by simp [_ConvertNodes, hvis], by simp⟩
    · exact ⟨[q], by simp [_ConvertNodes, hvis, hq], by simp⟩

/-- Connection-reference conversion is insensitive to removing the dangling
connection from the network map: only key-presence and node type
identifiers are consulted. -/
theorem _ConvertConnectionRefs_congr (sdrRegistry : SdrRegistryT)
    (net net2 : HdMaterialNetwork2) (n : SdfPathT) (c : Connection)
    (cpre cpost : List (String × List Connection)) (inName : String)
    (cs1 cs2 : List Connection)
    (S : DanglingDropSetup net net2 n c cpre cpost inName cs1 cs2)
    (sdrEntry : SdrShaderNode) (conns : List (String × List Connection)) :
    _ConvertConnectionRefs sdrRegistry net sdrEntry conns
      = _ConvertConnectionRefs sdrRegistry net2 sdrEntry conns := by
  unfold _ConvertConnectionRefs
  apply flatMap_congr
  intro connEntry _
  apply flatMap_congr
  intro e _
  by_cases hn : e.upstreamNode = n
  · rcases S.at_n with h | ⟨nodeN, nodeN2, h1, h2, h3, _, _, _⟩
    · rw [hn, ← h]
    · simp only [hn, h1, h2]
      rw [h3]
  · rw [S.lookup_eq e.upstreamNode hn]

theorem _BuildShadingNode_congr (sdrRegistry : SdrRegistryT) (env : AssetResolveEnv)
    (net net2 : HdMaterialNetwork2) (n : SdfPathT) (c : Connection)
    (cpre cpost : List (String × List Connection)) (inName : String)
    (cs1 cs2 : List Connection)
    (S : DanglingDropSetup net net2 n c cpre cpost inName cs1 cs2)
    (p : SdfPathT) (node : HdMaterialNode2) :
    _BuildShadingNode sdrRegistry env net p node
      = _BuildShadingNode sdrRegistry env net2 p node := by
  rcases h : sdrRegistry node.nodeTypeId with _ | sdrEntry
  · simp [_BuildShadingNode, h]
  · simp only [_BuildShadingNode, h]
    rw [_ConvertConnectionRefs_congr sdrRegistry net net2 n c cpre cpost inName
      cs1 cs2 S sdrEntry node.inputConnections]

/-- Removing the dangling connection from node `n`'s record does not change
the shading node built for `n`: the dangling connection contributes no
reference parameter (its upstream lookup fails), and nothing else differs. -/
theorem _BuildShadingNode_congr_at_n (sdrRegistry : SdrRegistryT)
    (env : AssetResolveEnv) (net net2 : HdMaterialNetwork2) (n : SdfPathT)
    (c : Connection) (cpre cpost : List (String × List Connection))
    (inName : String) (cs1 cs2 : List Connection)
    (S : DanglingDropSetup net net2 n c cpre cpost inName cs1 cs2)
    (nodeN nodeN2 : HdMaterialNode2)
    (h3 : nodeN.nodeTypeId = nodeN2.nodeTypeId)
    (h4 : nodeN.parameters = nodeN2.parameters)
    (h5 : nodeN.inputConnections = cpre ++ (inName, cs1 ++ c :: cs2) :: cpost)
    (h6 : nodeN2.inputConnections = cpre ++ (inName, cs1 ++ cs2) :: cpost) :
    _BuildShadingNode sdrRegistry env net n nodeN
      = _BuildShadingNode sdrRegistry env net2 n nodeN2 := by
  have hrefs : ∀ sdrEntry : SdrShaderNode,
      _ConvertConnectionRefs sdrRegistry net sdrEntry nodeN.inputConnections
        = _ConvertConnectionRefs sdrRegistry net2 sdrEntry nodeN2.inputConnections := by
    intro sdrEntry
    rw [h5, h6]
    have step1 : _ConvertConnectionRefs sdrRegistry net sdrEntry
        (cpre ++ (inName, cs1 ++ c :: cs2) :: cpost)
        = _ConvertConnectionRefs sdrRegistry net sdrEntry
        (cpre ++ (inName, cs1 ++ cs2) :: cpost) := by
      unfold _ConvertConnectionRefs
      simp only [List.flatMap_append, List.flatMap_cons, S.dangling,
        List.append_assoc, List.nil_append, List.append_nil]
    rw [step1]
    exact _ConvertConnectionRefs_congr sdrRegistry net net2 n c cpre cpost inName
      cs1 cs2 S sdrEntry _
  have hcl : ∀ sdrEntry, _ClassifyShadingNodeType nodeN sdrEntry
      = _ClassifyShadingNodeType nodeN2 sdrEntry := by
    intro sdrEntry
    unfold _ClassifyShadingNodeType
    rw [h3]
  rcases h : sdrRegistry nodeN.nodeTypeId with _ | sdrEntry
  · have h2 : sdrRegistry nodeN2.nodeTypeId = none := by rw [← h3]; exact h
    simp [_BuildShadingNode, h, h2]
  · have h2 : sdrRegistry nodeN2.nodeTypeId = some sdrEntry := by rw [← h3]; exact h
    simp only [_BuildShadingNode, h, h2]
    rw [hcl sdrEntry, h4, hrefs sdrEntry]

theorem KeyAgree_cons (net : HdMaterialNetwork2) (p : SdfPathT)
    (v1 v2 : List SdfPathT) (h : KeyAgree net v1 v2) :
    KeyAgree net (p :: v1) (p :: v2) := by
  intro k hk
  simp [List.mem_cons, h k hk]

theorem KeyAgree_nonkey_left (net : HdMaterialNetwork2) (δ X Y : List SdfPathT)
    (h : KeyAgree net X Y) (hδ : ∀ d ∈ δ, alookup net.nodes d = none) :
    KeyAgree net (δ ++ X) Y := by
  intro k hk
  have hkδ : k ∉ δ := by
    intro hmem
    rw [hδ k hmem] at hk
    simp at hk
  rw [List.mem_append]
  constructor
  · intro hor
    rcases hor with h1 | h1
    · exact absurd h1 hkδ
    · exact (h k hk).mp h1
  · intro h1
    exact Or.inr ((h k hk).mpr h1)

/-- Bisimulation of the upstream loop over the same connection list, given
a bisimulation of the callee pair. -/
theorem _ConvertUpstreamNodes_bisim (net : HdMaterialNetwork2)
    (f1 f2 : SdfPathT → List SdfPathT → Bool × List RileyShadingNode × List SdfPathT)
    (hP : ∀ p v1 v2, KeyAgree net v1 v2 →
      (f1 p v1).1 = (f2 p v2).1 ∧ (f1 p v1).2.1 = (f2 p v2).2.1 ∧
      KeyAgree net ((f1 p v1).2.2 ++ v1) ((f2 p v2).2.2 ++ v2)) :
    ∀ (conns : List Connection) (v1 v2 : List SdfPathT), KeyAgree net v1 v2 →
      (_ConvertUpstreamNodes f1 conns v1).1 = (_ConvertUpstreamNodes f2 conns v2).1 ∧
      KeyAgree net ((_ConvertUpstreamNodes f1 conns v1).2 ++ v1)
        ((_ConvertUpstreamNodes f2 conns v2).2 ++ v2) := by
  intro conns
  induction conns with
  | nil =>
    intro v1 v2 hv
    exact ⟨rfl, by simpa [_ConvertUpstreamNodes] using hv⟩
  | cons cc rest ih =>
    intro v1 v2 hv
    obtain ⟨hb, hsns, hka⟩ := hP cc.upstreamNode v1 v2 hv
    obtain ⟨hsns2, hka2⟩ := ih ((f1 cc.upstreamNode v1).2.2 ++ v1)
      ((f2 cc.upstreamNode v2).2.2 ++ v2) hka
    constructor
    · show (f1 cc.upstreamNode v1).2.1 ++ _ = (f2 cc.upstreamNode v2).2.1 ++ _
      rw [hsns, hsns2]
    · show KeyAgree net ((_ ++ (f1 cc.upstreamNode v1).2.2) ++ v1)
        ((_ ++ (f2 cc.upstreamNode v2).2.2) ++ v2)
      rw [List.append_assoc, List.append_assoc]
      exact hka2

/-- Bisimulation: running the converter on the original network and on the
network with the dangling connection removed produces, from key-agreeing
visited sets, the same flag, the same emitted node list, and key-agreeing
visited sets. -/
theorem _ConvertNodes_bisim (sdrRegistry : SdrRegistryT) (env : AssetResolveEnv)
    (net net2 : HdMaterialNetwork2) (n : SdfPathT) (c : Connection)
    (cpre cpost : List (String × List Connection)) (inName : String)
    (cs1 cs2 : List Connection)
    (S : DanglingDropSetup net net2 n c cpre cpost inName cs1 cs2) :
    ∀ (fuel : Nat) (p : SdfPathT) (v1 v2 : List SdfPathT), KeyAgree net v1 v2 →
      (_ConvertNodes sdrRegistry env net fuel p v1).1
        = (_ConvertNodes sdrRegistry env net2 fuel p v2).1 ∧
      (_ConvertNodes sdrRegistry env net fuel p v1).2.1
        = (_ConvertNodes sdrRegistry env net2 fuel p v2).2.1 ∧
      KeyAgree net ((_ConvertNodes sdrRegistry env net fuel p v1).2.2 ++ v1)
        ((_ConvertNodes sdrRegistry env net2 fuel p v2).2.2 ++ v2) := by
  intro fuel
  induction fuel with
  | zero =>
    intro p v1 v2 hv
    exact ⟨rfl, rfl, by simpa using hv⟩
  | succ fuel ih =>
    intro p v1 v2 hv
    by_cases hkey : (alookup net.nodes p).isSome = true
    · obtain ⟨node, hsome⟩ := Option.isSome_iff_exists.mp hkey
      have hvp := hv p hkey
      by_cases h1 : p ∈ v1
      · have h2 : p ∈ v2 := hvp.mp h1
        have e1 : _ConvertNodes sdrRegistry env net (fuel + 1) p v1
            = (false, [], []) := by simp [_ConvertNodes, h1]
        have e2 : _ConvertNodes sdrRegistry env net2 (fuel + 1) p v2
            = (false, [], []) := by simp [_ConvertNodes, h2]
        rw [e1, e2]
        exact ⟨rfl, rfl, by simpa using hv⟩
      · have h2 : p ∉ v2 := fun hm => h1 (hvp.mpr hm)
        have hka0 : KeyAgree net (p :: v1) (p :: v2) := KeyAgree_cons net p v1 v2 hv
        have hcase : (alookup net2.nodes p = some node) ∨
            (p = n ∧ ∃ nodeN2, alookup net2.nodes p = some nodeN2 ∧
              node.nodeTypeId = nodeN2.nodeTypeId ∧
              node.parameters = nodeN2.parameters ∧
              node.inputConnections = cpre ++ (inName, cs1 ++ c :: cs2) :: cpost ∧
              nodeN2.inputConnections = cpre ++ (inName, cs1 ++ cs2) :: cpost) := by
          by_cases hn : p = n
          · subst hn
            rcases S.at_n with h | ⟨nodeN, nodeN2, hA, hB, h3, h4, h5, h6⟩
            · exact Or.inl (by rw [← h]; exact hsome)
            · rw [hsome] at hA
              injection hA with hA2
              subst hA2
              exact Or.inr ⟨rfl, nodeN2, hB, h3, h4, h5, h6⟩
          · exact Or.inl (by rw [S.lookup_eq p hn, hsome])
        rcases hcase with hlook2 | ⟨hn, nodeN2, hlook2, h3, h4, h5, h6⟩
        · obtain ⟨hsnsC, hkaC⟩ := _ConvertUpstreamNodes_bisim net
            (_ConvertNodes sdrRegistry env net fuel)
            (_ConvertNodes sdrRegistry env net2 fuel)
            ih (node.inputConnections.flatMap Prod.snd) (p :: v1) (p :: v2) hka0
          have hbc := _BuildShadingNode_congr sdrRegistry env net net2 n c cpre cpost
            inName cs1 cs2 S p node
          rcases hb : _BuildShadingNode sdrRegistry env net p node with _ | sn
          · have hb2 : _BuildShadingNode sdrRegistry env net2 p node = none := by
              rw [← hbc]; exact hb
            have e1 : _ConvertNodes sdrRegistry env net (fuel + 1) p v1
                = (false,
                   (_ConvertUpstreamNodes (_ConvertNodes sdrRegistry env net fuel)
                     (node.inputConnections.flatMap Prod.snd) (p :: v1)).1,
                   (_ConvertUpstreamNodes (_ConvertNodes sdrRegistry env net fuel)
                     (node.inputConnections.flatMap Prod.snd) (p :: v1)).2 ++ [p]) := by
              simp [_ConvertNodes, h1, hsome, hb]
            have e2 : _ConvertNodes sdrRegistry env net2 (fuel + 1) p v2
                = (false,
                   (_ConvertUpstreamNodes (_ConvertNodes sdrRegistry env net2 fuel)
                     (node.inputConnections.flatMap Prod.snd) (p :: v2)).1,
                   (_ConvertUpstreamNodes (_ConvertNodes sdrRegistry env net2 fuel)
                     (node.inputConnections.flatMap Prod.snd) (p :: v2)).2 ++ [p]) := by
              simp [_ConvertNodes, h2, hlook2, hb2]
            rw [e1, e2]
            refine ⟨rfl, hsnsC, ?_⟩
            rw [List.append_assoc, List.append_assoc, List.singleton_append,
              List.singleton_append]
            exact hkaC
          · have hb2 : _BuildShadingNode sdrRegistry env net2 p node = some sn := by
              rw [← hbc]; exact hb
            have e1 : _ConvertNodes sdrRegistry env net (fuel + 1) p v1
                = (true,
                   (_ConvertUpstreamNodes (_ConvertNodes sdrRegistry env net fuel)
                     (node.inputConnections.flatMap Prod.snd) (p :: v1)).1 ++ [sn],
                   (_ConvertUpstreamNodes (_ConvertNodes sdrRegistry env net fuel)
                     (node.inputConnections.flatMap Prod.snd) (p :: v1)).2 ++ [p]) := by
              simp [_ConvertNodes, h1, hsome, hb]
            have e2 : _ConvertNodes sdrRegistry env net2 (fuel + 1) p v2
                = (true,
                   (_ConvertUpstreamNodes (_ConvertNodes sdrRegistry env net2 fuel)
                     (node.inputConnections.flatMap Prod.snd) (p :: v2)).1 ++ [sn],
                   (_ConvertUpstreamNodes (_ConvertNodes sdrRegistry env net2 fuel)
                     (node.inputConnections.flatMap Prod.snd) (p :: v2)).2 ++ [p]) := by
              simp [_ConvertNodes, h2, hlook2, hb2]
            rw [e1, e2]
            refine ⟨rfl, by rw [hsnsC], ?_⟩
            rw [List.append_assoc, List.append_assoc, List.singleton_append,
              List.singleton_append]
            exact hkaC
        · subst hn
          have hflat1 : node.inputConnections.flatMap Prod.snd
              = (cpre.flatMap Prod.snd ++ cs1)
                ++ (c :: (cs2 ++ cpost.flatMap Prod.snd)) := by
            rw [h5]; simp [List.flatMap_append, List.flatMap_cons, List.append_assoc]
          have hflat2 : nodeN2.inputConnections.flatMap Prod.snd
              = (cpre.flatMap Prod.snd ++ cs1) ++ (cs2 ++ cpost.flatMap Prod.snd) := by
            rw [h6]; simp [List.flatMap_append, List.flatMap_cons, List.append_assoc]
          obtain ⟨hsnsA, hkaA⟩ := _ConvertUpstreamNodes_bisim net
            (_ConvertNodes sdrRegistry env net fuel)
            (_ConvertNodes sdrRegistry env net2 fuel)
            ih (cpre.flatMap Prod.snd ++ cs1) (p :: v1) (p :: v2) hka0
          obtain ⟨δc, hδc, hδcq⟩ := _ConvertNodes_missing sdrRegistry env net fuel
            c.upstreamNode
            ((_ConvertUpstreamNodes (_ConvertNodes sdrRegistry env net fuel)
              (cpre.flatMap Prod.snd ++ cs1) (p :: v1)).2 ++ (p :: v1)) S.dangling
          have hka_c : KeyAgree net
              (δc ++ ((_ConvertUpstreamNodes (_ConvertNodes sdrRegistry env net fuel)
                (cpre.flatMap Prod.snd ++ cs1) (p :: v1)).2 ++ (p :: v1)))
              ((_ConvertUpstreamNodes (_ConvertNodes sdrRegistry env net2 fuel)
                (cpre.flatMap Prod.snd ++ cs1) (p :: v2)).2 ++ (p :: v2)) :=
            KeyAgree_nonkey_left net δc _ _ hkaA
              (fun d hd => by rw [hδcq d hd]; exact S.dangling)
          obtain ⟨hsnsB, hkaB⟩ := _ConvertUpstreamNodes_bisim net
            (_ConvertNodes sdrRegistry env net fuel)
            (_ConvertNodes sdrRegistry env net2 fuel)
            ih (cs2 ++ cpost.flatMap Prod.snd)
            (δc ++ ((_ConvertUpstreamNodes (_ConvertNodes sdrRegistry env net fuel)
              (cpre.flatMap Prod.snd ++ cs1) (p :: v1)).2 ++ (p :: v1)))
            ((_ConvertUpstreamNodes (_ConvertNodes sdrRegistry env net2 fuel)
              (cpre.flatMap Prod.snd ++ cs1) (p :: v2)).2 ++ (p :: v2)) hka_c
          have hChildL : _ConvertUpstreamNodes (_ConvertNodes sdrRegistry env net fuel)
              (node.inputConnections.flatMap Prod.snd) (p :: v1)
              = ((_ConvertUpstreamNodes (_ConvertNodes sdrRegistry env net fuel)
                  (cpre.flatMap Prod.snd ++ cs1) (p :: v1)).1
                 ++ (_ConvertUpstreamNodes (_ConvertNodes sdrRegistry env net fuel)
                  (cs2 ++ cpost.flatMap Prod.snd)
                  (δc ++ ((_ConvertUpstreamNodes (_ConvertNodes sdrRegistry env net fuel)
                    (cpre.flatMap Prod.snd ++ cs1) (p :: v1)).2 ++ (p :: v1)))).1,
                 ((_ConvertUpstreamNodes (_ConvertNodes sdrRegistry env net fuel)
                  (cs2 ++ cpost.flatMap Prod.snd)
                  (δc ++ ((_ConvertUpstreamNodes (_ConvertNodes sdrRegistry env net fuel)
                    (cpre.flatMap Prod.snd ++ cs1) (p :: v1)).2 ++ (p :: v1)))).2
                  ++ δc)
                 ++ (_ConvertUpstreamNodes (_ConvertNodes sdrRegistry env net fuel)
                  (cpre.flatMap Prod.snd ++ cs1) (p :: v1)).2) := by
            rw [hflat1, _ConvertUpstreamNodes_append]
            simp only [_ConvertUpstreamNodes, hδc, List.nil_append, List.append_assoc]
          have hChildR : _ConvertUpstreamNodes (_ConvertNodes sdrRegistry env net2 fuel)
              (nodeN2.inputConnections.flatMap Prod.snd) (p :: v2)
              = ((_ConvertUpstreamNodes (_ConvertNodes sdrRegistry env net2 fuel)
                  (cpre.flatMap Prod.snd ++ cs1) (p :: v2)).1
                 ++ (_ConvertUpstreamNodes (_ConvertNodes sdrRegistry env net2 fuel)
                  (cs2 ++ cpost.flatMap Prod.snd)
                  ((_ConvertUpstreamNodes (_ConvertNodes sdrRegistry env net2 fuel)
                    (cpre.flatMap Prod.snd ++ cs1) (p :: v2)).2 ++ (p :: v2))).1,
                 (_ConvertUpstreamNodes (_ConvertNodes sdrRegistry env net2 fuel)
                  (cs2 ++ cpost.flatMap Prod.snd)
                  ((_ConvertUpstreamNodes (_ConvertNodes sdrRegistry env net2 fuel)
                    (cpre.flatMap Prod.snd ++ cs1) (p :: v2)).2 ++ (p :: v2))).2
                 ++ (_ConvertUpstreamNodes (_ConvertNodes sdrRegistry env net2 fuel)
                  (cpre.flatMap Prod.snd ++ cs1) (p :: v2)).2) := by
            rw [hflat2, _ConvertUpstreamNodes_append]
          have hbn := _BuildShadingNode_congr_at_n sdrRegistry env net net2 p c cpre
            cpost inName cs1 cs2 S node nodeN2 h3 h4 h5 h6
          rcases hb : _BuildShadingNode sdrRegistry env net p node with _ | sn
          · have hb2 : _BuildShadingNode sdrRegistry env net2 p nodeN2 = none := by
              rw [← hbn]; exact hb
            have e1 : _ConvertNodes sdrRegistry env net (fuel + 1) p v1
                = (false,
                   (_ConvertUpstreamNodes (_ConvertNodes sdrRegistry env net fuel)
                     (node.inputConnections.flatMap Prod.snd) (p :: v1)).1,
                   (_ConvertUpstreamNodes (_ConvertNodes sdrRegistry env net fuel)
                     (node.inputConnections.flatMap Prod.snd) (p :: v1)).2 ++ [p]) := by
              simp [_ConvertNodes, h1, hsome, hb]
            have e2 : _ConvertNodes sdrRegistry env net2 (fuel + 1) p v2
                = (false,
                   (_ConvertUpstreamNodes (_ConvertNodes sdrRegistry env net2 fuel)
                     (nodeN2.inputConnections.flatMap Prod.snd) (p :: v2)).1,
                   (_ConvertUpstreamNodes (_ConvertNodes sdrRegistry env net2 fuel)
                     (nodeN2.inputConnections.flatMap Prod.snd) (p :: v2)).2 ++ [p]) := by
              simp [_ConvertNodes, h2, hlook2, hb2]
            rw [e1, e2, hChildL, hChildR]
            refine ⟨rfl, by rw [hsnsA, hsnsB], ?_⟩
            simp only [List.append_assoc, List.singleton_append]
            exact hkaB
          · have hb2 : _BuildShadingNode sdrRegistry env net2 p nodeN2 = some sn := by
              rw [← hbn]; exact hb
            have e1 : _ConvertNodes sdrRegistry env net (fuel + 1) p v1
                = (true,
                   (_ConvertUpstreamNodes (_ConvertNodes sdrRegistry env net fuel)
                     (node.inputConnections.flatMap Prod.snd) (p :: v1)).1 ++ [sn],
                   (_ConvertUpstreamNodes (_ConvertNodes sdrRegistry env net fuel)
                     (node.inputConnections.flatMap Prod.snd) (p :: v1)).2 ++ [p]) := by
              simp [_ConvertNodes, h1, hsome, hb]
            have e2 : _ConvertNodes sdrRegistry env net2 (fuel + 1) p v2
                = (true,
                   (_ConvertUpstreamNodes (_ConvertNodes sdrRegistry env net2 fuel)
                     (nodeN2.inputConnections.flatMap Prod.snd) (p :: v2)).1 ++ [sn],
                   (_ConvertUpstreamNodes (_ConvertNodes sdrRegistry env net2 fuel)
                     (nodeN2.inputConnections.flatMap Prod.snd) (p :: v2)).2 ++ [p]) := by
              simp [_ConvertNodes, h2, hlook2, hb2]
            rw [e1, e2, hChildL, hChildR]
            refine ⟨rfl, by rw [hsnsA, hsnsB], ?_⟩
            simp only [List.append_assoc, List.singleton_append]
            exact hkaB
    · have hnone : alookup net.nodes p = none := by
        rcases h : alookup net.nodes p with _ | z
        · rfl
        · rw [h] at hkey; simp at hkey
      have hnone2 : alookup net2.nodes p = none := by
        have hk2 := S.keys_eq p
        rw [hnone] at hk2
        rcases h : alookup net2.nodes p with _ | z
        · rfl
        · rw [h] at hk2; simp at hk2
      have hkp : ∀ k, (alookup net.nodes k).isSome = true → k ≠ p := by
        intro k hk he
        rw [he, hnone] at hk
        simp at hk
      by_cases h1 : p ∈ v1 <;> by_cases h2 : p ∈ v2
      · have e1 : _ConvertNodes sdrRegistry env net (fuel + 1) p v1
            = (false, [], []) := by simp [_ConvertNodes, h1]
        have e2 : _ConvertNodes sdrRegistry env net2 (fuel + 1) p v2
            = (false, [], []) := by simp [_ConvertNodes, h2]
        rw [e1, e2]
        exact ⟨rfl, rfl, by simpa using hv⟩
      · have e1 : _ConvertNodes sdrRegistry env net (fuel + 1) p v1
            = (false, [], []) := by simp [_ConvertNodes, h1]
        have e2 : _ConvertNodes sdrRegistry env net2 (fuel + 1) p v2
            = (false, [], [p]) := by simp [_ConvertNodes, h2, hnone2]
        rw [e1, e2]
        refine ⟨rfl, rfl, ?_⟩
        intro k hk
        have hne := hkp k hk
        simp only [List.nil_append, List.singleton_append, List.mem_cons]
        exact ⟨fun hm => Or.inr ((hv k hk).mp hm),
          fun hm => by
            rcases hm with hm | hm
            · exact absurd hm hne
            · exact (hv k hk).mpr hm⟩
      · have e1 : _ConvertNodes sdrRegistry env net (fuel + 1) p v1
            = (false, [], [p]) := by simp [_ConvertNodes, h1, hnone]
        have e2 : _ConvertNodes sdrRegistry env net2 (fuel + 1) p v2
            = (false, [], []) := by simp [_ConvertNodes, h2]
        rw [e1, e2]
        refine ⟨rfl, rfl, ?_⟩
        intro k hk
        have hne := hkp k hk
        simp only [List.nil_append, List.singleton_append, List.mem_cons]
        exact ⟨fun hm => by
            rcases hm with hm | hm
            · exact absurd hm hne
            · exact (hv k hk).mp hm,
          fun hm => Or.inr ((hv k hk).mpr hm)⟩
      · have e1 : _ConvertNodes sdrRegistry env net (fuel + 1) p v1
            = (false, [], [p]) := by simp [_ConvertNodes, h1, hnone]
        have e2 : _ConvertNodes sdrRegistry env net2 (fuel + 1) p v2
            = (false, [], [p]) := by simp [_ConvertNodes, h2, hnone2]
        rw [e1, e2]
        refine ⟨rfl, rfl, ?_⟩
        simpa using KeyAgree_cons net p v1 v2 hv

/-! ## Helper facts for the parameter and terminal claims -/

/-- Whether `_BuildShadingNode` succeeds does not depend on the node's
authored parameters: only the registry entry, the classification and the
implementation path decide success (parameter dispatch failures merely
log). -/
theorem _BuildShadingNode_isSome_params (sdrRegistry : SdrRegistryT)
    (env : AssetResolveEnv) (network : HdMaterialNetwork2) (nodePath : SdfPathT)
    (node : HdMaterialNode2) (ps : List (String × VtValue)) :
    (_BuildShadingNode sdrRegistry env network nodePath
        { node with parameters := ps }).isSome
      = (_BuildShadingNode sdrRegistry env network nodePath node).isSome := by
  have hty : ({ node with parameters := ps } : HdMaterialNode2).nodeTypeId
      = node.nodeTypeId := rfl
  have hcl : ∀ sdrEntry, _ClassifyShadingNodeType { node with parameters := ps } sdrEntry
      = _ClassifyShadingNodeType node sdrEntry := by
    intro sdrEntry
    unfold _ClassifyShadingNodeType
    rfl
  unfold _BuildShadingNode
  rw [hty]
  rcases h : sdrRegistry node.nodeTypeId with _ | sdrEntry
  · rfl
  · simp only [hcl sdrEntry]
    rcases hc : _ClassifyShadingNodeType node sdrEntry with _ | snType
    · rfl
    · by_cases huri : sdrEntry.resolvedImplementationURI = ""
      · simp [huri]
      · simp [huri]

theorem _ProcessTerminal_material_fields (sdrRegistry : SdrRegistryT)
    (env : AssetResolveEnv) (sink : RileySink) (network : HdMaterialNetwork2)
    (st : RmanConvState) (terminal : String × Connection)
    (h1 : terminal.1 ≠ "surface") (h2 : terminal.1 ≠ "volume") :
    (_ProcessTerminal sdrRegistry env sink network st terminal).materialFound
        = st.materialFound
    ∧ (_ProcessTerminal sdrRegistry env sink network st terminal).materialId
        = st.materialId := by
  have hsv : ¬(terminal.1 = "surface" ∨ terminal.1 = "volume") := by
    rintro (h | h)
    · exact h1 h
    · exact h2 h
  rcases hr : HdPrman_ConvertHdMaterialNetwork2ToRmanNodes sdrRegistry env network
    terminal.2.upstreamNode with ⟨b, L⟩
  cases b
  · simp [_ProcessTerminal, hr]
  · by_cases hd : terminal.1 = "displacement"
    · rcases hdid : st.displacementId with _ | did <;>
        simp [_ProcessTerminal, hr, hsv, hd, hdid]
    · simp [_ProcessTerminal, hr, hsv, hd]

theorem _ProcessTerminal_displacement_fields (sdrRegistry : SdrRegistryT)
    (env : AssetResolveEnv) (sink : RileySink) (network : HdMaterialNetwork2)
    (st : RmanConvState) (terminal : String × Connection)
    (h1 : terminal.1 ≠ "displacement") :
    (_ProcessTerminal sdrRegistry env sink network st terminal).displacementFound
        = st.displacementFound
    ∧ (_ProcessTerminal sdrRegistry env sink network st terminal).displacementId
        = st.displacementId := by
  rcases hr : HdPrman_ConvertHdMaterialNetwork2ToRmanNodes sdrRegistry env network
    terminal.2.upstreamNode with ⟨b, L⟩
  cases b
  · simp [_ProcessTerminal, hr]
  · by_cases hsv : terminal.1 = "surface" ∨ terminal.1 = "volume"
    · rcases hmid : st.materialId with _ | mid <;>
        simp [_ProcessTerminal, hr, hsv, hmid]
    · simp [_ProcessTerminal, hr, hsv, h1]

theorem foldl_terminals_material (sdrRegistry : SdrRegistryT)
    (env : AssetResolveEnv) (sink : RileySink) (network : HdMaterialNetwork2)
    (ts : List (String × Connection)) :
    ∀ st : RmanConvState,
      (∀ t ∈ ts, t.1 ≠ "surface" ∧ t.1 ≠ "volume") →
      ((ts.foldl (_ProcessTerminal sdrRegistry env sink network) st).materialFound
          = st.materialFound
        ∧ (ts.foldl (_ProcessTerminal sdrRegistry env sink network) st).materialId
          = st.materialId) := by
  induction ts with
  | nil => intro st _; exact ⟨rfl, rfl⟩
  | cons t ts ih =>
    intro st h
    have hstep := _ProcessTerminal_material_fields sdrRegistry env sink network st t
      (h t (List.mem_cons_self _ _)).1 (h t (List.mem_cons_self _ _)).2
    have hrest := ih (_ProcessTerminal sdrRegistry env sink network st t)
      (fun t2 ht2 => h t2 (List.mem_cons_of_mem _ ht2))
    exact ⟨hrest.1.trans hstep.1, hrest.2.trans hstep.2⟩

theorem foldl_terminals_displacement (sdrRegistry : SdrRegistryT)
    (env : AssetResolveEnv) (sink : RileySink) (network : HdMaterialNetwork2)
    (ts : List (String × Connection)) :
    ∀ st : RmanConvState,
      (∀ t ∈ ts, t.1 ≠ "displacement") →
      ((ts.foldl (_ProcessTerminal sdrRegistry env sink network) st).displacementFound
          = st.displacementFound
        ∧ (ts.foldl (_ProcessTerminal sdrRegistry env sink network) st).displacementId
          = st.displacementId) := by
  induction ts with
  | nil => intro st _; exact ⟨rfl, rfl⟩
  | cons t ts ih =>
    intro st h
    have hstep := _ProcessTerminal_displacement_fields sdrRegistry env sink network st t
      (h t (List.mem_cons_self _ _))
    have hrest := ih (_ProcessTerminal sdrRegistry env sink network st t)
      (fun t2 ht2 => h t2 (List.mem_cons_of_mem _ ht2))
    exact ⟨hrest.1.trans hstep.1, hrest.2.trans hstep.2⟩

theorem wNet_rank_lt : ∀ x y, edgeTo wNet x y = true → wRank y < wRank x := by
  intro x y h
  by_cases h1 : x = "/a"
  · subst h1
    have hy : y = "/b" ∨ y = "/c" := by
      simp [edgeTo, wNet, alookup] at h
      rcases h with h | h <;> [exact Or.inl h.symm; exact Or.inr h.symm]
    rcases hy with hy | hy <;> subst hy <;> decide
  · by_cases h2 : x = "/b"
    · subst h2
      have hy : y = "/d" := by
        simp [edgeTo, wNet, alookup] at h
        exact h.symm
      subst hy; decide
    · by_cases h3 : x = "/c"
      · subst h3
        have hy : y = "/d" := by
          simp [edgeTo, wNet, alookup] at h
          exact h.symm
        subst hy; decide
      · by_cases h4 : x = "/d"
        · subst h4
          simp [edgeTo, wNet, alookup] at h
        · have hnone : alookup wNet.nodes x = none := by
            simp only [wNet, alookup]
            rw [if_neg (fun he => h1 he.symm), if_neg (fun he => h2 he.symm),
              if_neg (fun he => h3 he.symm), if_neg (fun he => h4 he.symm)]
          unfold edgeTo at h
          rw [hnone] at h
          simp at h

theorem wNet_acyclic : AcyclicNetwork wNet :=
  acyclic_of_rank wNet wRank wNet_rank_lt

/-! ## The claims -/

/-- C1: for every acyclic `HdMaterialNetwork2` and root node path, every
node that `_ConvertNodes` emits into the output list appears after all of
its direct upstream dependencies that also appear in the list: if the node
at output position `i` has the node at position `j` as an upstream
dependency, then `j < i` (post-order emission yields topological
dependency order). -/
theorem c1_output_topologically_ordered (sdrRegistry : SdrRegistryT)
    (env : AssetResolveEnv) (network : HdMaterialNetwork2)
    (rootNodePath : SdfPathT) (hacyc : AcyclicNetwork network) (i j : Nat)
    (hi : i < (HdPrman_ConvertHdMaterialNetwork2ToRmanNodes sdrRegistry env network
      rootNodePath).2.length)
    (hj : j < (HdPrman_ConvertHdMaterialNetwork2ToRmanNodes sdrRegistry env network
      rootNodePath).2.length)
    (hedge : edgeTo network
      (((HdPrman_ConvertHdMaterialNetwork2ToRmanNodes sdrRegistry env network
        rootNodePath).2).get ⟨i, hi⟩).handle
      (((HdPrman_ConvertHdMaterialNetwork2ToRmanNodes sdrRegistry env network
        rootNodePath).2).get ⟨j, hj⟩).handle = true) :
    j < i := by
  have hfresh : freshCount network [] < network.nodes.length + 1 :=
    lt_of_le_of_lt (freshCount_le_length network []) (Nat.lt_succ_self _)
  have inv := _ConvertNodes_inv sdrRegistry env network (network.nodes.length + 1)
    rootNodePath [] hfresh
  exact topo_order_of_inv network
    (HdPrman_ConvertHdMaterialNetwork2ToRmanNodes sdrRegistry env network
      rootNodePath).2 inv.order hacyc i j hi hj hedge

/-- Witness for C1 at the diamond fixture: the root `/a` is emitted at
position 3, its direct dependency `/b` at position 1, and the theorem
places the dependency strictly earlier. -/
theorem c1_witness : (1 : Nat) < 3 :=
  c1_output_topologically_ordered wReg wEnv wNet "/a" wNet_acyclic 3 1
    (by decide) (by decide) (by decide)

/-- C2: for every network and root, one call of
`HdPrman_ConvertHdMaterialNetwork2ToRmanNodes` emits each node path at
most once (so a node reachable over several connection paths — e.g. a
diamond — appears exactly once, at the position of its first visit), and
a repeat visit of an already visited path returns immediately with
`false`, emitting nothing and leaving the visited set unchanged. -/
theorem c2_dedup_single_emission (sdrRegistry : SdrRegistryT)
    (env : AssetResolveEnv) (network : HdMaterialNetwork2)
    (rootNodePath : SdfPathT) :
    (snHandles (HdPrman_ConvertHdMaterialNetwork2ToRmanNodes sdrRegistry env network
      rootNodePath).2).Nodup
    ∧ (∀ x ∈ snHandles (HdPrman_ConvertHdMaterialNetwork2ToRmanNodes sdrRegistry env
        network rootNodePath).2,
        (snHandles (HdPrman_ConvertHdMaterialNetwork2ToRmanNodes sdrRegistry env
          network rootNodePath).2).count x = 1)
    ∧ (∀ (fuel : Nat) (nodePath : SdfPathT) (visitedNodes : List SdfPathT),
        nodePath ∈ visitedNodes →
        _ConvertNodes sdrRegistry env network fuel nodePath visitedNodes
          = (false, [], [])) := by
  have hfresh : freshCount network [] < network.nodes.length + 1 :=
    lt_of_le_of_lt (freshCount_le_length network []) (Nat.lt_succ_self _)
  have inv := _ConvertNodes_inv sdrRegistry env network (network.nodes.length + 1)
    rootNodePath [] hfresh
  refine ⟨inv.handles_nodup, ?_, ?_⟩
  · intro x hx
    exact List.count_eq_one_of_mem inv.handles_nodup hx
  · intro fuel nodePath visitedNodes hmem
    cases fuel with
    | zero => rfl
    | succ fuel => simp [_ConvertNodes, hmem]

/-- Witness for C2 at the diamond fixture: `/d` is reachable from the root
over `/b` and over `/c` yet appears exactly once, and a repeat visit of
`/d` is a silent no-op. -/
theorem c2_witness :
    ("/d" ∈ snHandles (HdPrman_ConvertHdMaterialNetwork2ToRmanNodes wReg wEnv wNet
      "/a").2)
    ∧ (snHandles (HdPrman_ConvertHdMaterialNetwork2ToRmanNodes wReg wEnv wNet
        "/a").2).count "/d" = 1
    ∧ ("/d" ∈ (["/d", "/a"] : List SdfPathT))
    ∧ _ConvertNodes wReg wEnv wNet 3 "/d" ["/d", "/a"] = (false, [], []) :=
  ⟨by decide,
   (c2_dedup_single_emission wReg wEnv wNet "/a").2.1 "/d" (by decide),
   by decide,
   (c2_dedup_single_emission wReg wEnv wNet "/a").2.2 3 "/d" ["/d", "/a"] (by decide)⟩

/-- C8: two calls of `HdPrman_ConvertHdMaterialNetwork2ToRmanNodes` with
the same network, root and registry (and no intervening mutation) produce
structurally identical output lists and the same success flag: the
converter holds no state across calls — the visited set is created afresh
inside each call (material.cpp:570) and everything else is read-only
input. -/
theorem c8_conversion_deterministic (sdrRegistry : SdrRegistryT)
    (env : AssetResolveEnv) (network : HdMaterialNetwork2)
    (rootNodePath : SdfPathT) (r1 r2 : Bool × List RileyShadingNode)
    (h1 : r1 = HdPrman_ConvertHdMaterialNetwork2ToRmanNodes sdrRegistry env network
      rootNodePath)
    (h2 : r2 = HdPrman_ConvertHdMaterialNetwork2ToRmanNodes sdrRegistry env network
      rootNodePath) :
    r1 = r2 := by
  rw [h1, h2]

/-- Witness for C8: two conversions of the diamond fixture coincide. -/
theorem c8_witness :
    HdPrman_ConvertHdMaterialNetwork2ToRmanNodes wReg wEnv wNet "/a"
      = HdPrman_ConvertHdMaterialNetwork2ToRmanNodes wReg wEnv wNet "/a" :=
  c8_conversion_deterministic wReg wEnv wNet "/a" _ _ rfl rfl

/-- C9: if the glslfx file reloaded by `HdStGLSLFXShader::Reload` is not
valid, the stored glslfx object and both registered shader sources
(fragment and geometry) remain exactly as they were — the shader is
replaced only when the reloaded file is valid. -/
theorem c9_reload_invalid_keeps_state (loadGlslfx : String → HioGlslfx)
    (sh : HdStGLSLFXShader)
    (h : (loadGlslfx sh.glslfx.filePath).isValid = false) :
    HdStGLSLFXShader_Reload loadGlslfx sh = sh := by
  simp [HdStGLSLFXShader_Reload, h]

/-- Witness for C9: reloading through a loader that yields an invalid
glslfx leaves the shader untouched. -/
theorem c9_witness :
    (wInvalidLoader wShader.glslfx.filePath).isValid = false
    ∧ HdStGLSLFXShader_Reload wInvalidLoader wShader = wShader :=
  ⟨rfl, c9_reload_invalid_keeps_state wInvalidLoader wShader rfl⟩

/-- C10: whenever `HdxOitVolumeRenderTask::Execute` reaches the
translucent-pixels pass, the saved `GL_MULTISAMPLE` and `GL_POINT_SMOOTH`
enable states are restored to their saved values before Execute returns
(multisample disabled and point smooth enabled only for the duration of
the pass). -/
theorem c10_execute_restores_gl_state (env : OitExecEnv) (gl : GLState)
    (h : (HdxOitVolumeRenderTask_Execute env gl).2 = true) :
    (HdxOitVolumeRenderTask_Execute env gl).1 = gl := by
  rcases gl with ⟨ms, ps⟩
  unfold HdxOitVolumeRenderTask_Execute at h ⊢
  split_ifs at h ⊢
  cases ms <;> cases ps <;> simp_all

/-- Witness for C10: with all guards passing and initial state
(multisample on, point smooth off), the pass is reached and the state is
restored. -/
theorem c10_witness :
    (HdxOitVolumeRenderTask_Execute wOitEnv ⟨true, false⟩).2 = true
    ∧ (HdxOitVolumeRenderTask_Execute wOitEnv ⟨true, false⟩).1 = ⟨true, false⟩ :=
  ⟨rfl, c10_execute_restores_gl_state wOitEnv ⟨true, false⟩ rfl⟩

/-- C3 (code bug, material.cpp:400-405): a parameter holding a
`VtArray<int>` bound to a float-typed input is fetched with
`UncheckedGet<VtArray<float>>` even though the guard just established the
held type is `VtArray<int>`, so the renderer parameter carries the byte
reinterpretation of the ints rather than the element-wise widened values
the adjacent scalar case (material.cpp:393-394) produces.  At the input
array `[1]` the emitted float bit pattern is `1` (≈ 1.4e-45) instead of
`0x3F800000` (1.0f). -/
theorem c3_int_array_to_float_input_not_widened :
    _ConvertParamValue wEnv ShadingNodeType.k_Pattern "fArr"
        { propType := "float", implementationName := "fArr", options := [] }
        (VtValue.intArray [1])
      = ([RtParam.setFloatArray "fArr" [1]], true)
    ∧ f32ReinterpretOfInt 1 = 1
    ∧ f32OfInt 1 = 0x3F800000
    ∧ List.map f32ReinterpretOfInt [1] ≠ List.map f32OfInt [1] := by
  decide

/-- C5: converting a network that lacks a displacement terminal, given a
prior non-invalid displacement identifier, issues a delete-displacement
call with that identifier and resets the stored identifier to the invalid
sentinel; symmetrically for the material category (surface/volume
terminals). -/
theorem c5_missing_terminal_teardown (sdrRegistry : SdrRegistryT)
    (env : AssetResolveEnv) (sink : RileySink) (network : HdMaterialNetwork2)
    (materialId displacementId : Option Nat) :
    ((∀ t ∈ network.terminals, t.1 ≠ "displacement") →
      ∀ d, displacementId = some d →
      (_ConvertHdMaterialNetwork2ToRman sdrRegistry env sink network materialId
        displacementId).displacementId = none
      ∧ RileyCall.deleteDisplacement (some d)
          ∈ (_ConvertHdMaterialNetwork2ToRman sdrRegistry env sink network materialId
            displacementId).calls)
    ∧ ((∀ t ∈ network.terminals, t.1 ≠ "surface" ∧ t.1 ≠ "volume") →
      ∀ m, materialId = some m →
      (_ConvertHdMaterialNetwork2ToRman sdrRegistry env sink network materialId
        displacementId).materialId = none
      ∧ RileyCall.deleteMaterial (some m)
          ∈ (_ConvertHdMaterialNetwork2ToRman sdrRegistry env sink network materialId
            displacementId).calls) := by
  constructor
  · intro hterm d hd
    have hfold := foldl_terminals_displacement sdrRegistry env sink network
      network.terminals
      { materialId := materialId, displacementId := displacementId,
        materialFound := false, displacementFound := false, calls := [] } hterm
    simp only [_ConvertHdMaterialNetwork2ToRman]
    revert hfold
    generalize network.terminals.foldl (_ProcessTerminal sdrRegistry env sink network)
      { materialId := materialId, displacementId := displacementId,
        materialFound := false, displacementFound := false, calls := [] } = st
    intro hfold
    have hdf : st.displacementFound = false := hfold.1
    have hdi : st.displacementId = some d := by rw [hfold.2, hd]
    have h1a : (if st.materialFound = true then st
        else { st with
                 materialId := none,
                 calls := st.calls
                   ++ [RileyCall.deleteMaterial st.materialId] }).displacementFound
        = st.displacementFound := by split <;> rfl
    have h1b : (if st.materialFound = true then st
        else { st with
                 materialId := none,
                 calls := st.calls
                   ++ [RileyCall.deleteMaterial st.materialId] }).displacementId
        = st.displacementId := by split <;> rfl
    rw [if_neg (by rw [h1a, hdf]; simp)]
    constructor
    · rfl
    · rw [h1b, hdi]
      exact List.mem_append_right _ (by simp)
  · intro hterm m hm
    have hfold := foldl_terminals_material sdrRegistry env sink network
      network.terminals
      { materialId := materialId, displacementId := displacementId,
        materialFound := false, displacementFound := false, calls := [] } hterm
    simp only [_ConvertHdMaterialNetwork2ToRman]
    revert hfold
    generalize network.terminals.foldl (_ProcessTerminal sdrRegistry env sink network)
      { materialId := materialId, displacementId := displacementId,
        materialFound := false, displacementFound := false, calls := [] } = st
    intro hfold
    have hmf : st.materialFound = false := hfold.1
    have hmi : st.materialId = some m := by rw [hfold.2, hm]
    have hst1 : (if st.materialFound = true then st
        else { st with
                 materialId := none,
                 calls := st.calls ++ [RileyCall.deleteMaterial st.materialId] })
        = { st with
              materialId := none,
              calls := st.calls ++ [RileyCall.deleteMaterial st.materialId] } := by
      rw [if_neg (by rw [hmf]; simp)]
    rw [hst1]
    constructor
    · split <;> rfl
    · have hmem : RileyCall.deleteMaterial (some m)
          ∈ ({ st with
                 materialId := none,
                 calls := st.calls
                   ++ [RileyCall.deleteMaterial st.materialId] } : RmanConvState).calls := by
        show RileyCall.deleteMaterial (some m)
          ∈ st.calls ++ [RileyCall.deleteMaterial st.materialId]
        rw [hmi]
        exact List.mem_append_right _ (by simp)
      split
      · exact hmem
      · exact List.mem_append_left _ hmem

/-- Witness for C5: a network with no terminals at all, prior identifiers
`some 5` (material) and `some 7` (displacement): both resources are torn
down and both identifiers reset. -/
theorem c5_witness :
    ((_ConvertHdMaterialNetwork2ToRman wReg wEnv wSink wNetNoTerminals (some 5)
        (some 7)).displacementId = none
      ∧ RileyCall.deleteDisplacement (some 7)
          ∈ (_ConvertHdMaterialNetwork2ToRman wReg wEnv wSink wNetNoTerminals (some 5)
            (some 7)).calls)
    ∧ ((_ConvertHdMaterialNetwork2ToRman wReg wEnv wSink wNetNoTerminals (some 5)
        (some 7)).materialId = none
      ∧ RileyCall.deleteMaterial (some 5)
          ∈ (_ConvertHdMaterialNetwork2ToRman wReg wEnv wSink wNetNoTerminals (some 5)
            (some 7)).calls) :=
  ⟨(c5_missing_terminal_teardown wReg wEnv wSink wNetNoTerminals (some 5)
      (some 7)).1 (by simp [wNetNoTerminals]) 7 rfl,
   (c5_missing_terminal_teardown wReg wEnv wSink wNetNoTerminals (some 5)
      (some 7)).2 (by simp [wNetNoTerminals]) 5 rfl⟩

/-- C6: a token or string value bound to an int-typed input with option
table `{("low","0"),("med","1"),("high","2")}` resolves through the table:
the value `"high"` (whose table entry carries the label `"2"`) converts to
the integer 2, while a value matching no entry makes the parameter a
silent per-parameter skip, and conversion of the node carrying such a
parameter still succeeds with the parameter absent. -/
theorem c6_enum_option_resolution :
    _ConvertOptionTokenToInt "high" wEnumOptions = (2, true)
    ∧ _ConvertParamValue wEnv ShadingNodeType.k_Pattern "enumIn"
        { propType := "int", implementationName := "enumIn", options := wEnumOptions }
        (VtValue.token "high") = ([RtParam.setInteger "enumIn" 2], true)
    ∧ _ConvertParamValue wEnv ShadingNodeType.k_Pattern "enumIn"
        { propType := "int", implementationName := "enumIn", options := wEnumOptions }
        (VtValue.string "high") = ([RtParam.setInteger "enumIn" 2], true)
    ∧ (∀ v : String, (∀ pr ∈ wEnumOptions, pr.1 ≠ v) →
        _ConvertParamValue wEnv ShadingNodeType.k_Pattern "enumIn"
          { propType := "int", implementationName := "enumIn",
            options := wEnumOptions }
          (VtValue.token v) = ([], false))
    ∧ HdPrman_ConvertHdMaterialNetwork2ToRmanNodes wReg wEnv wNetEnum "/e"
        = (true, [{ type := ShadingNodeType.k_Pattern, handle := "/e",
                    name := "/shaders/pattern.oso", params := [] }]) := by
  refine ⟨by decide, by decide, by decide, ?_, by decide⟩
  intro v hv
  have hfind : wEnumOptions.find? (fun tokenPair => tokenPair.1 == v) = none := by
    rw [List.find?_eq_none]
    intro pr hpr
    simpa using hv pr hpr
  simp [_ConvertParamValue, _ConvertOptionTokenToInt, hfind]

/-- Witness for C6: the label `"nope"` matches no table entry and the
parameter is skipped. -/
theorem c6_witness :
    (∀ pr ∈ wEnumOptions, pr.1 ≠ "nope")
    ∧ _ConvertParamValue wEnv ShadingNodeType.k_Pattern "enumIn"
        { propType := "int", implementationName := "enumIn", options := wEnumOptions }
        (VtValue.token "nope") = ([], false) :=
  ⟨by decide, c6_enum_option_resolution.2.2.2.1 "nope" (by decide)⟩

/-- C7: a parameter bound to a registry input whose declared type is
Struct or Vstruct emits no renderer parameter and is not a dispatch
failure (`ok` stays true, so the skip is silent), and whether the
containing node converts successfully never depends on its authored
parameters. -/
theorem c7_struct_inputs_silently_dropped (env : AssetResolveEnv)
    (snType : ShadingNodeType) (paramName : String) (prop : SdrShaderProperty)
    (value : VtValue)
    (h : prop.propType = "struct" ∨ prop.propType = "vstruct") :
    _ConvertParamValue env snType paramName prop value = ([], true)
    ∧ ∀ (sdrRegistry : SdrRegistryT) (network : HdMaterialNetwork2)
        (nodePath : SdfPathT) (node : HdMaterialNode2)
        (ps : List (String × VtValue)),
        (_BuildShadingNode sdrRegistry env network nodePath
            { node with parameters := ps }).isSome
          = (_BuildShadingNode sdrRegistry env network nodePath node).isSome := by
  constructor
  · unfold _ConvertParamValue
    rw [if_pos h]
  · intro sdrRegistry network nodePath node ps
    exact _BuildShadingNode_isSome_params sdrRegistry env network nodePath node ps

/-- Witness for C7: a float value bound to the struct-typed input `sIn`
is dropped silently. -/
theorem c7_witness :
    (("struct" : String) = "struct" ∨ ("struct" : String) = "vstruct")
    ∧ _ConvertParamValue wEnv ShadingNodeType.k_Pattern "sIn"
        { propType := "struct", implementationName := "sIn", options := [] }
        (VtValue.float 1065353216) = ([], true) :=
  ⟨Or.inl rfl,
   (c7_struct_inputs_silently_dropped wEnv ShadingNodeType.k_Pattern "sIn"
     { propType := "struct", implementationName := "sIn", options := [] }
     (VtValue.float 1065353216) (Or.inl rfl)).1⟩

/-- C4: in a network whose root node exists and which contains a
connection whose upstream node path is absent from the node mapping,
conversion behaves exactly as on the same network with that dangling
connection removed: the same success flag and the same output node list
(so every other branch still converts, and exactly the broken connection
and the branch rooted at the missing node are omitted; the traversal
continues with siblings rather than aborting). -/
theorem c4_dangling_connection_omitted (sdrRegistry : SdrRegistryT)
    (env : AssetResolveEnv) (npre npost : List (SdfPathT × HdMaterialNode2))
    (n : SdfPathT) (typeId : String) (ps : List (String × VtValue))
    (cpre cpost : List (String × List Connection)) (inName : String)
    (cs1 cs2 : List Connection) (c : Connection)
    (ts : List (String × Connection)) (rootNodePath : SdfPathT)
    (net net2 : HdMaterialNetwork2)
    (hnet : net = { nodes := npre ++ (n, { nodeTypeId := typeId, parameters := ps, inputConnections := cpre ++ (inName, cs1 ++ c :: cs2) :: cpost }) :: npost, terminals := ts })
    (hnet2 : net2 = { nodes := npre ++ (n, { nodeTypeId := typeId, parameters := ps, inputConnections := cpre ++ (inName, cs1 ++ cs2) :: cpost }) :: npost, terminals := ts })
    (hdangle : alookup net.nodes c.upstreamNode = none)
    (_hroot : (alookup net.nodes rootNodePath).isSome = true) :
    HdPrman_ConvertHdMaterialNetwork2ToRmanNodes sdrRegistry env net rootNodePath
      = HdPrman_ConvertHdMaterialNetwork2ToRmanNodes sdrRegistry env net2
          rootNodePath := by
  have hnodes : net.nodes = npre ++ (n, { nodeTypeId := typeId, parameters := ps, inputConnections := cpre ++ (inName, cs1 ++ c :: cs2) :: cpost }) :: npost := by
    rw [hnet]
  have hnodes2 : net2.nodes = npre ++ (n, { nodeTypeId := typeId, parameters := ps, inputConnections := cpre ++ (inName, cs1 ++ cs2) :: cpost }) :: npost := by
    rw [hnet2]
  have S : DanglingDropSetup net net2 n c cpre cpost inName cs1 cs2 := by
    refine ⟨?_, ?_, ?_, hdangle, ?_⟩
    · intro k
      rw [hnodes, hnodes2, alookup_append, alookup_append]
      cases hpre : alookup npre k
      · by_cases hnk : n = k <;> simp [alookup, hnk]
      · simp
    · intro k hk
      rw [hnodes, hnodes2, alookup_append, alookup_append]
      cases hpre : alookup npre k
      · have hnk : ¬(n = k) := fun he => hk he.symm
        simp [alookup, hnk]
      · simp
    · rw [hnodes, hnodes2, alookup_append, alookup_append]
      cases hpre : alookup npre n
      · right
        refine ⟨{ nodeTypeId := typeId, parameters := ps, inputConnections := cpre ++ (inName, cs1 ++ c :: cs2) :: cpost }, { nodeTypeId := typeId, parameters := ps, inputConnections := cpre ++ (inName, cs1 ++ cs2) :: cpost }, ?_, ?_, rfl, rfl, rfl, rfl⟩ <;> simp [alookup]
      · left; simp
    · rw [hnodes, hnodes2]
      simp
  have hlen : net2.nodes.length = net.nodes.length := S.len_eq.symm
  have hbis := _ConvertNodes_bisim sdrRegistry env net net2 n c cpre cpost inName
    cs1 cs2 S (net.nodes.length + 1) rootNodePath [] [] (fun k _ => Iff.rfl)
  simp only [HdPrman_ConvertHdMaterialNetwork2ToRmanNodes]
  rw [hlen]
  exact Prod.ext hbis.1 hbis.2.1

/-- Witness for C4: the fixture `wNetDangling` (root `/r` with a
connection to the missing `/missing` and one to the existing `/u`)
converts to exactly the same output as the fixture without the dangling
connection. -/
theorem c4_witness :
    alookup wNetDangling.nodes "/missing" = none
    ∧ (alookup wNetDangling.nodes "/r").isSome = true
    ∧ HdPrman_ConvertHdMaterialNetwork2ToRmanNodes wReg wEnv wNetDangling "/r"
        = HdPrman_ConvertHdMaterialNetwork2ToRmanNodes wReg wEnv wNetDangling2
            "/r" :=
  ⟨by decide, by decide,
   c4_dangling_connection_omitted wReg wEnv []
     [("/u", { nodeTypeId := "TestPattern", parameters := [],
               inputConnections := [] })]
     "/r" "TestSurface" [] [] [] "cIn" [] [⟨"/u", "out"⟩] ⟨"/missing", "out"⟩ []
     "/r" wNetDangling wNetDangling2 rfl rfl (by decide) (by decide)⟩
